import Mathlib

/-!
# GoAgent fetch server (`server/fetch/fetch.go`)

A shallow embedding of the request-forwarding handler of the GoAgent fetch
server: the `key=hex(value)` codec, the response framing, the `Set-Cookie`
folding loop and the retry loop of `Webapp.post`.

Go strings are byte sequences; they are embedded as lists of bytes.  A Go
`map[string]string` is embedded as an association list with pairwise different
keys, and `range` visits the entries in list order (Go leaves the order open,
so every statement about `encodeData` is made for an arbitrary entry order).
A run-time panic (slice or index out of range, nil dereference) is `none`.
-/

namespace GoAgent

/-! ## Bytes and strings -/

abbrev Byte := UInt8

abbrev GoString := List Byte

/-- The bytes of an ASCII string literal of the source. -/
def bs (s : String) : GoString := s.toList.map (fun c => UInt8.ofNat c.toNat)

/-- The Go function `strings.HasPrefix`. -/
def hasPrefix : GoString → GoString → Bool
  | _, [] => true
  | [], _ :: _ => false
  | c :: s, d :: p => c == d && hasPrefix s p

/-- The Go function `strings.Contains`: `sub` occurs somewhere in `s`. -/
def contains : GoString → GoString → Bool
  | [], sub => hasPrefix [] sub
  | c :: s, sub => hasPrefix (c :: s) sub || contains s sub

/-- The loop of `strings.Split` for a non-empty separator: `k` is the number of
separator bytes still to be skipped, `acc` the piece read so far. -/
def splitGo (sep : GoString) : Nat → GoString → GoString → List GoString
  | _, [], acc => [acc]
  | k + 1, _ :: s, acc => splitGo sep k s acc
  | 0, c :: s, acc =>
    if hasPrefix (c :: s) sep then acc :: splitGo sep (sep.length - 1) s []
    else splitGo sep 0 s (acc ++ [c])

/-- The Go function `strings.Split(s, sep)`: the pieces of `s` between the
non-overlapping occurrences of `sep`, found from the left; with an empty
separator the string is exploded into its bytes. -/
def split (s sep : GoString) : List GoString :=
  if sep = [] then s.map (fun c => [c]) else splitGo sep 0 s []

/-- The Go function `strings.Join`. -/
def join (sep : GoString) : List GoString → GoString
  | [] => []
  | [a] => a
  | a :: b :: r => a ++ sep ++ join sep (b :: r)

/-! ## Hexadecimal -/

/-- One entry of `hextable = "0123456789abcdef"`. -/
def hexDigit (n : Nat) : Byte :=
  if n < 10 then UInt8.ofNat (48 + n) else UInt8.ofNat (87 + n)

/-- The Go function `hex.EncodeToString`: two digits per byte, high nibble first. -/
def hexEncode : GoString → GoString
  | [] => []
  | b :: r => hexDigit (b.toNat / 16) :: hexDigit (b.toNat % 16) :: hexEncode r

/-- The value of a hexadecimal digit (`fromHexChar`), in either case. -/
def fromHexChar (c : Byte) : Option Nat :=
  let n := c.toNat
  if 48 ≤ n ∧ n ≤ 57 then some (n - 48)
  else if 97 ≤ n ∧ n ≤ 102 then some (n - 97 + 10)
  else if 65 ≤ n ∧ n ≤ 70 then some (n - 65 + 10)
  else none

/-- The Go function `hex.DecodeString`: `none` is its error result (odd length
or a byte that is no hexadecimal digit). -/
def hexDecode : GoString → Option GoString
  | [] => some []
  | [_] => none
  | a :: b :: r =>
    match fromHexChar a, fromHexChar b, hexDecode r with
    | some x, some y, some t => some (UInt8.ofNat (x * 16 + y) :: t)
    | _, _, _ => none

/-! ## Maps -/

/-- A Go `map[string]string`: the entries, with pairwise different keys. -/
abbrev GoMap := List (GoString × GoString)

/-- The lookup `m[k]` with its `ok` flag. -/
def GoMap.get? : GoMap → GoString → Option GoString
  | [], _ => none
  | (k', v) :: m, k => if k' = k then some v else GoMap.get? m k

/-- The lookup `m[k]`, the empty string for an absent key. -/
def GoMap.get (m : GoMap) (k : GoString) : GoString := (GoMap.get? m k).getD []

/-- The assignment `m[k] = v`. -/
def GoMap.set : GoMap → GoString → GoString → GoMap
  | [], k, v => [(k, v)]
  | (k', v') :: m, k, v => if k' = k then (k, v) :: m else (k', v') :: GoMap.set m k v

/-! ## The codec -/

/-- The buffer `encodeData` fills: `&key=hex(value)` for every entry. -/
def encodeBuf : GoMap → GoString
  | [] => []
  | (k, v) :: m => bs "&" ++ k ++ bs "=" ++ hexEncode v ++ encodeBuf m

/-- The function `encodeData`: the buffer without its first byte; `w.Bytes()[1:]`
panics on the empty buffer. -/
def encodeData (dic : GoMap) : Option GoString :=
  match encodeBuf dic with
  | [] => none
  | _ :: w => some w

/-- One round of the loop of `decodeData`: the segment `kv` is split on `=`,
`pair[1]` panics when there is no second piece, an undecodable value is the
empty string (the error of `hex.DecodeString` is dropped). -/
def decodeStep (m : GoMap) (kv : GoString) : Option GoMap :=
  if kv ≠ [] then
    match split kv (bs "=") with
    | k :: v :: _ => some (GoMap.set m k ((hexDecode v).getD []))
    | _ => none
  else some m

/-- The loop of `decodeData` over the segments. -/
def decodeLoop : List GoString → GoMap → Option GoMap
  | [], m => some m
  | kv :: r, m =>
    match decodeStep m kv with
    | some m' => decodeLoop r m'
    | none => none

/-- The function `decodeData`. -/
def decodeData (qs : GoString) : Option GoMap :=
  decodeLoop (split qs (bs "&")) []

/-- The segment `key=hex(value)` of one entry. -/
def segment (e : GoString × GoString) : GoString := e.1 ++ bs "=" ++ hexEncode e.2

/-! ## The response writer and the framing -/

/-- The constants of the source. -/
def Password : GoString := bs ""

def FetchMax : Nat := 3

def FetchMaxSize : Nat := 1024 * 1024

def Deadline : Nat := 30

/-- The library functions and runtime services the handler calls; they are not
part of the repository and are left open. -/
structure Env where
  /-- Whether `zlib.NewWriter` returns a writer (no error). -/
  newWriterOk : Bool
  /-- The bytes a zlib writer emits, up to `Close`, for the bytes written to it. -/
  deflate : GoString → GoString
  /-- The stream `zlib.NewReader` gives for a request body, `none` for its error. -/
  newReader : GoString → Option GoString
  /-- The bytes `ioutil.ReadAll` reads from that stream, `none` for its error. -/
  readAll : GoString → Option GoString
  /-- Whether `http.NewRequest` accepts the URL. -/
  parseURL : GoString → Bool
  /-- The function `strings.TrimSpace`. -/
  trimSpace : GoString → GoString
  /-- The function `strings.ToLower`. -/
  toLower : GoString → GoString
  /-- The canonical form `Header.Set` gives a header name. -/
  canonicalKey : GoString → GoString

/-- The `http.ResponseWriter` of the call.  `status` is the status sent by
`WriteHeader` and `sent` the headers sent with it: `Header()` "returns the header
map that will be sent by WriteHeader; changing the header after a call to
WriteHeader (or Write) has no effect".  `header` is that map, with every `Set`
made on it, and `body` the bytes written so far.  Headers the server adds on its
own are not part of the model. -/
structure ResponseWriter where
  status : Option Int
  sent : GoMap
  header : GoMap
  body : GoString
deriving DecidableEq, Repr

/-- The call `WriteHeader(code)`: the first call sends the status and the header
map as it is then; a later call has no effect. -/
def ResponseWriter.writeHeader (w : ResponseWriter) (code : Int) : ResponseWriter :=
  match w.status with
  | none => { w with status := some code, sent := w.header }
  | some _ => w

/-- The call `Header().Set(k, v)`: it changes the header map, and reaches the
outer response only when made before `WriteHeader`. -/
def ResponseWriter.setHeader (w : ResponseWriter) (k v : GoString) : ResponseWriter :=
  { w with header := GoMap.set w.header k v }

/-- The call `Write(b)`. -/
def ResponseWriter.write (w : ResponseWriter) (b : GoString) : ResponseWriter :=
  { w with body := w.body ++ b }

/-- The conversion `uint32(x)` of an `int`. -/
def uint32 (x : Int) : Nat := (x % 4294967296).toNat

/-- The four bytes `binary.Write(w, binary.BigEndian, n)` writes for a `uint32`. -/
def be32 (n : Nat) : GoString :=
  [UInt8.ofNat (n / 16777216), UInt8.ofNat (n / 65536), UInt8.ofNat (n / 256), UInt8.ofNat n]

/-- One invocation of `printResponse`, as it was called. -/
structure Outcome where
  status : Int
  header : GoMap
  content : GoString
deriving DecidableEq, Repr

/-- One upstream round trip, as it was issued: the deadline of the transport
and the headers of the request. -/
structure Attempt where
  deadline : Nat
  header : GoMap
deriving DecidableEq, Repr

/-- The observable state of one call of the handler: the response writer, the
invocations of `printResponse` and the round trips so far (oldest first), and
whether the goroutine has panicked. -/
structure World where
  response : ResponseWriter
  calls : List Outcome
  attempts : List Attempt
  panicked : Bool
deriving DecidableEq, Repr

/-- The state at the start of a call. -/
def World.init : World :=
  { response := { status := none, sent := [], header := [], body := [] }, calls := [],
    attempts := [],
    panicked := false }

/-- The bytes after the discriminator: status, the two lengths, header block, content. -/
def framePayload (status : Int) (headerBytes content : GoString) : GoString :=
  be32 (uint32 status) ++ be32 (uint32 headerBytes.length) ++ be32 (uint32 content.length)
    ++ headerBytes ++ content

/-- The test `contentType, ok := header["Content-Type"]; ok && HasPrefix(contentType, "text/")`. -/
def isTextual (header : GoMap) : Bool :=
  match GoMap.get? header (bs "Content-Type") with
  | some contentType => hasPrefix contentType (bs "text/")
  | none => false

/-- The method `Webapp.printResponse`.  `encodeData` panics on an empty header
map.  On the textual path the discriminator is written to the response itself,
the payload goes through the zlib writer, which is closed on return; when the
writer cannot be made the method returns after the discriminator. -/
def printResponse (env : Env) (w : World) (status : Int) (header : GoMap) (content : GoString) :
    World :=
  let w : World :=
    { w with calls := w.calls ++ [{ status := status, header := header, content := content }] }
  match encodeData header with
  | none => { w with panicked := true }
  | some headerBytes =>
    let r := (w.response.writeHeader 200).setHeader (bs "Content-Type") (bs "image/gif")
    if isTextual header then
      let r := r.write (bs "1")
      if env.newWriterOk then
        { w with response := r.write (env.deflate (framePayload status headerBytes content)) }
      else { w with response := r }
    else
      let r := r.write (bs "0")
      let r := r.write (be32 (uint32 status))
      let r := r.write (be32 (uint32 headerBytes.length))
      let r := r.write (be32 (uint32 content.length))
      let r := r.write headerBytes
      { w with response := r.write content }

/-- The decimal digits `%d` and `strconv.Itoa` print. -/
def itoa (n : Int) : GoString :=
  let digits := (Nat.toDigits 10 n.natAbs).map (fun c => UInt8.ofNat c.toNat)
  if n < 0 then bs "-" ++ digits else digits

/-- The content of a notification, the `fmt.Sprintf` of `printNotify`. -/
def notifyContent (method url : GoString) (status : Int) (text : GoString) : GoString :=
  bs "<h2>GAE/GO Fetch Server Info</h2><hr noshade='noshade'><p>" ++ method ++ bs " '" ++ url
    ++ bs "'</p><p>Return Code: " ++ itoa status ++ bs "</p><p>Message: " ++ text ++ bs "</p>"

/-- The invocation of `printResponse` that `printNotify` makes. -/
def notification (method url : GoString) (status : Int) (text : GoString) : Outcome :=
  ⟨status, [(bs "Content-Type", bs "text/html")], notifyContent method url status text⟩

/-- The method `Webapp.printNotify`. -/
def printNotify (env : Env) (w : World) (method url : GoString) (status : Int) (text : GoString) :
    World :=
  printResponse env w status [(bs "Content-Type", bs "text/html")]
    (notifyContent method url status text)

/-- The number a big-endian group of bytes stands for. -/
def fromBE (b : GoString) : Nat := b.foldl (fun n c => n * 256 + c.toNat) 0

/-- Modelled from the spec: the reading of the bytes after the discriminator (the
reader of a frame is the client, which is not in the source): three big-endian
32-bit numbers (status, header length, content length), the header block, the
content. -/
def parsePayload (p : GoString) : Option (Nat × Nat × Nat × GoString × GoString) :=
  if p.length < 12 then none
  else
    let hlen := fromBE ((p.drop 4).take 4)
    let clen := fromBE ((p.drop 8).take 4)
    if p.length < 12 + hlen + clen then none
    else some (fromBE (p.take 4), hlen, clen, (p.drop 12).take hlen,
      (p.drop (12 + hlen)).take clen)

/-- Modelled from the spec: the reading of a frame as the outbound wire format
lays it out (the reader is the client, which is not in the source): the
discriminator, then the payload, inflated after `'1'` and raw after `'0'`. -/
def parseFrame (inflate : GoString → Option GoString) :
    GoString → Option (Nat × Nat × Nat × GoString × GoString)
  | [] => none
  | d :: rest =>
    if d = 49 then
      match inflate rest with
      | some p => parsePayload p
      | none => none
    else if d = 48 then parsePayload rest
    else none

/-! ## Cookie folding -/

/-- The rest of a match of `^[^ =]+ ` once one byte of the class has been read. -/
def regexRest : GoString → Bool
  | [] => false
  | c :: s => if c = 32 then true else if c = 61 then false else regexRest s

/-- The test `regex.MatchString(sc)` for the pattern `^[^ =]+ `: at the start of
`sc`, one or more bytes other than space and `=`, then a space. -/
def regexMatch : GoString → Bool
  | [] => false
  | c :: s => if c = 32 ∨ c = 61 then false else regexRest s

/-- One round of the folding loop on the state `(cookies, i)`: the assignment
`cookies[i] = ...` panics when `i` is out of range. -/
def foldStep (st : List GoString × Int) (sc : GoString) : Option (List GoString × Int) :=
  if 0 ≤ st.2 ∧ regexMatch sc = true then
    match st.1[st.2.toNat]? with
    | some ci => some (st.1.set st.2.toNat (ci ++ bs ", " ++ sc), st.2)
    | none => none
  else some (st.1 ++ [sc], st.2 + 1)

/-- The folding loop over the fragments. -/
def foldLoop : List GoString → List GoString × Int → Option (List GoString × Int)
  | [], st => some st
  | sc :: r, st =>
    match foldStep st sc with
    | some st' => foldLoop r st'
    | none => none

/-- The `cookies` slice the loop leaves for a `Set-Cookie` value, from
`cookies = nil`, `i = -1`. -/
def foldedCookies (v : GoString) : Option (List GoString) :=
  (foldLoop (split v (bs ", ")) ([], -1)).map Prod.fst

/-- The value stored in `header["Set-Cookie"]`. -/
def foldCookies (v : GoString) : Option GoString :=
  (foldedCookies v).map (join (bs "\r\nSet-Cookie: "))

/-! ## The handler -/

/-- The request `http.NewRequest` builds. -/
structure Request where
  method : GoString
  url : GoString
  header : GoMap
  body : GoString
deriving DecidableEq, Repr

/-- The call `req.Header.Set(k, v)`. -/
def Request.setHeader (env : Env) (req : Request) (k v : GoString) : Request :=
  { req with header := GoMap.set req.header (env.canonicalKey k) v }

/-- An upstream response: the status code, the header entries `(k, vv[0])` in
the order `range resp.Header` visits them (every key of a header map filled by
the transport carries at least one value, and only the first is read), the bytes
`ioutil.ReadAll(resp.Body)` returned and whether it reported a truncated body. -/
structure Response where
  status : Int
  header : List (GoString × GoString)
  content : GoString
  truncated : Bool
deriving DecidableEq, Repr

/-- The result of one `RoundTrip`: an error with its message, or a response. -/
inductive RoundTrip where
  | failure (message : GoString)
  | success (resp : Response)
deriving DecidableEq, Repr

/-- The upstream transport, as the results of the successive round trips
(attempt `0` is the first). -/
abbrev Transport := Nat → RoundTrip

/-- The result of `strings.SplitN(s, sep, 2)` for a non-empty `sep`; `acc` is the
part read so far. -/
def splitN2 (sep : GoString) : GoString → GoString → List GoString
  | [], acc => [acc]
  | c :: s, acc =>
    if hasPrefix (c :: s) sep then [acc, (c :: s).drop sep.length]
    else splitN2 sep s (acc ++ [c])

/-- The loop that copies the `headers` lines into the request: `none` is the
panic of `req.Header.Set` on the nil request left by a failed `http.NewRequest`. -/
def setHeaders (env : Env) : List GoString → Option Request → Option (Option Request)
  | [], req => some req
  | line :: r, req =>
    match splitN2 (bs ":") line [] with
    | [k, v] =>
      match req with
      | some rq => setHeaders env r (some (rq.setHeader env (env.trimSpace k) (env.trimSpace v)))
      | none => none
    | _ => setHeaders env r req

/-- The loop `for k, vv := range resp.Header` that fills `header`; `none` is a
panic of the folding loop. -/
def copyHeaders (env : Env) : List (GoString × GoString) → GoMap → Option GoMap
  | [], header => some header
  | (k, v) :: r, header =>
    if env.toLower k ≠ bs "set-cookie" then copyHeaders env r (GoMap.set header k v)
    else
      match foldCookies v with
      | some c => copyHeaders env r (GoMap.set header (bs "Set-Cookie") c)
      | none => none

/-- The header map passed to `printResponse` for a response. -/
def responseHeader (env : Env) (resp : Response) : Option GoMap :=
  match copyHeaders env resp.header [] with
  | none => none
  | some header =>
    let header :=
      if resp.status = 206 then
        GoMap.set (GoMap.set header (bs "Accept-Ranges") (bs "bytes")) (bs "Content-Length")
          (itoa resp.content.length)
      else header
    some (GoMap.set header (bs "Connection") (bs "close"))

/-- The text `%v` prints for a `[]string`. -/
def fmtStrings (l : List GoString) : GoString := bs "[" ++ join (bs " ") l ++ bs "]"

/-- The retry loop of `post`, with `n` rounds left before `i` reaches `FetchMax`.
A round trip on a nil request panics.  Logging and sleeping are not observed. -/
def fetchLoop (env : Env) (tr : Transport) (method url : GoString) :
    Nat → Nat → Option Request → Nat → List GoString → World → World
  | 0, _, _, _, errors, w =>
    printNotify env w method url 502 (bs "Fetch Server Failed: " ++ fmtStrings errors)
  | _ + 1, _, none, _, _, w => { w with panicked := true }
  | n + 1, i, some req, deadline, errors, w =>
    let w : World :=
      { w with attempts := w.attempts ++ [{ deadline := deadline, header := req.header }] }
    match tr i with
    | RoundTrip.failure message =>
      let errors := errors ++ [message]
      if contains message (bs "DEADLINE_EXCEEDED") then
        fetchLoop env tr method url n (i + 1) (some req) (deadline * 2) errors w
      else if contains message (bs "FETCH_ERROR") then
        fetchLoop env tr method url n (i + 1) (some req) (deadline * 2) errors w
      else if contains message (bs "INVALID_URL") then
        printNotify env w method url 501 (bs "Invalid URL: " ++ message)
      else if contains message (bs "RESPONSE_TOO_LARGE") then
        fetchLoop env tr method url n (i + 1)
          (some (req.setHeader env (bs "Range") (bs "bytes=0-" ++ itoa FetchMaxSize)))
          (deadline * 2) errors w
      else fetchLoop env tr method url n (i + 1) (some req) deadline errors w
    | RoundTrip.success resp =>
      match responseHeader env resp with
      | none => { w with panicked := true }
      | some header => printResponse env w resp.status header resp.content

/-- Run `f` unless the goroutine has already panicked. -/
def World.andThen (w : World) (f : World → World) : World :=
  if w.panicked then w else f w

/-- The body of `post` once the request map is decoded. -/
def handle (env : Env) (tr : Transport) (request : GoMap) (w : World) : World :=
  let method := GoMap.get request (bs "method")
  let url := GoMap.get request (bs "url")
  let headers := GoMap.get request (bs "headers")
  let w :=
    if Password ≠ bs "" then
      match GoMap.get? request (bs "password") with
      | some password =>
        if password ≠ Password then printNotify env w method url 403 (bs "Wrong Password.") else w
      | none => printNotify env w method url 403 (bs "Wrong Password.")
    else w
  w.andThen fun w =>
  let w :=
    if ¬ hasPrefix url (bs "http") then printNotify env w method url 501 (bs "Unsupported Scheme")
    else w
  w.andThen fun w =>
  let req : Option Request :=
    if env.parseURL url then
      some { method := method, url := url, header := [], body := GoMap.get request (bs "payload") }
    else none
  let w :=
    if req = none then
      printNotify env w method url 500 (bs "http.NewRequest(method, url, payload) failed")
    else w
  w.andThen fun w =>
  match setHeaders env (split headers (bs "\r\n")) req with
  | none => { w with panicked := true }
  | some req => fetchLoop env tr method url FetchMax 0 req Deadline [] w

/-- The method `Webapp.post` on a request body: nothing is written when the body
cannot be inflated or read; `decodeData` may panic. -/
def post (env : Env) (tr : Transport) (body : GoString) : World :=
  match env.newReader body with
  | none => World.init
  | some r =>
    match env.readAll r with
    | none => World.init
    | some data =>
      match decodeData data with
      | none => { World.init with panicked := true }
      | some request => handle env tr request World.init

/-- A plain environment for evaluating the handler: identity compression, every
URL accepted, ASCII lower-casing, header names kept as they are. -/
def plainEnv : Env :=
  { newWriterOk := true
    deflate := fun x => x
    newReader := fun x => some x
    readAll := fun x => some x
    parseURL := fun _ => true
    trimSpace := fun x => (x.dropWhile (fun c => c = 32)).reverse.dropWhile (fun c => c = 32) |>.reverse
    toLower := fun x => x.map (fun c => if 65 ≤ c.toNat ∧ c.toNat ≤ 90 then c + 32 else c)
    canonicalKey := fun x => x }

/-! ## The folding rule in words -/

/-- Append a continuation fragment to the last entry with `", "`; with no entry
yet, the fragment is the first entry. -/
def appendToLast : List GoString → GoString → List GoString
  | [], sc => [sc]
  | [a], sc => [a ++ bs ", " ++ sc]
  | a :: b :: r, sc => a :: appendToLast (b :: r) sc

/-- The cookie entries a folding rule makes of the fragments, given the entries
so far: a fragment for which `startsNew` holds, and the first fragment, open an
entry; any other fragment is a continuation of the last entry. -/
def entriesBy (startsNew : GoString → Bool) : List GoString → List GoString → List GoString
  | [], es => es
  | sc :: r, es =>
    if es = [] ∨ startsNew sc = true then entriesBy startsNew r (es ++ [sc])
    else entriesBy startsNew r (appendToLast es sc)

/-- The folding as the specification words it: a fragment that matches the
pattern starts a new cookie, any other is a continuation. -/
def specFoldCookies (v : GoString) : GoString :=
  join (bs "\r\nSet-Cookie: ") (entriesBy regexMatch (split v (bs ", ")) [])

/-! ## Words for the properties of the retry loop -/

/-- A failure message the loop classifies as an invalid URL: the third test is
the first to hold. -/
def isInvalidURL (m : GoString) : Bool :=
  !contains m (bs "DEADLINE_EXCEEDED") && !contains m (bs "FETCH_ERROR")
    && contains m (bs "INVALID_URL")

/-- A failure message the loop classifies as a response too large: the fourth
test is the first to hold. -/
def isTooLarge (m : GoString) : Bool :=
  !contains m (bs "DEADLINE_EXCEEDED") && !contains m (bs "FETCH_ERROR")
    && !contains m (bs "INVALID_URL") && contains m (bs "RESPONSE_TOO_LARGE")

/-- A failure message classified as deadline exceeded, fetch error or response
too large. -/
def doublesDeadline (m : GoString) : Bool :=
  contains m (bs "DEADLINE_EXCEEDED") || contains m (bs "FETCH_ERROR") || isTooLarge m

/-- A result after which the loop makes no further round trip: a response, or a
failure classified as an invalid URL. -/
def RoundTrip.terminal : RoundTrip → Bool
  | RoundTrip.success _ => true
  | RoundTrip.failure m => isInvalidURL m

/-- A failure classified as deadline exceeded, fetch error or response too large. -/
def RoundTrip.doubles : RoundTrip → Bool
  | RoundTrip.success _ => false
  | RoundTrip.failure m => doublesDeadline m

/-- A failure classified as a response too large. -/
def RoundTrip.tooLarge : RoundTrip → Bool
  | RoundTrip.success _ => false
  | RoundTrip.failure m => isTooLarge m

/-- The number of results among `tr i, ..., tr (i + j - 1)` that double the deadline. -/
def doublings (tr : Transport) (i : Nat) : Nat → Nat
  | 0 => 0
  | j + 1 => doublings tr i j + (if (tr (i + j)).doubles then 1 else 0)

/-- Whether one of `tr i, ..., tr (i + j - 1)` is a response-too-large failure. -/
def tooLargeBefore (tr : Transport) (i : Nat) : Nat → Bool
  | 0 => false
  | j + 1 => tooLargeBefore tr i j || (tr (i + j)).tooLarge

/-- The request `http.NewRequest` returns in `post`, `none` for its error. -/
def newRequest (env : Env) (request : GoMap) : Option Request :=
  if env.parseURL (GoMap.get request (bs "url")) then
    some { method := GoMap.get request (bs "method"), url := GoMap.get request (bs "url"),
           header := [], body := GoMap.get request (bs "payload") }
  else none

/-- The state in which `post` reaches the header loop, with no password
configured: after the scheme check and the `http.NewRequest` check. -/
def prelude (env : Env) (request : GoMap) (w : World) : World :=
  let method := GoMap.get request (bs "method")
  let url := GoMap.get request (bs "url")
  let w1 :=
    if hasPrefix url (bs "http") then w
    else printNotify env w method url 501 (bs "Unsupported Scheme")
  if env.parseURL url then w1
  else printNotify env w1 method url 500 (bs "http.NewRequest(method, url, payload) failed")

/-- The state of the outer envelope during a call: the status sent is 200 (or
nothing is sent yet, and then the header map is still empty), the headers sent
with it are none, and once `printResponse` has been called the status is sent
and the header map of the writer has `Content-Type: image/gif`. -/
def Enveloped (w : World) : Prop :=
  (w.response.status = none ∨ w.response.status = some 200) ∧
  (w.response.status = none → w.response.header = []) ∧
  w.response.sent = [] ∧
  (w.calls ≠ [] → w.response.status = some 200 ∧
    GoMap.get? w.response.header (bs "Content-Type") = some (bs "image/gif"))

/-! ## Sample inputs -/

/-- A transport that fails once with a response too large and then answers 206. -/
def tooLargeThen206 : Transport := fun i =>
  if i = 0 then RoundTrip.failure (bs "RESPONSE_TOO_LARGE")
  else RoundTrip.success ⟨206, [(bs "Content-Length", bs "9999999")], bs "hello", false⟩

/-- A transport that answers 200 at once. -/
def answers200 : Transport := fun _ => RoundTrip.success ⟨200, [], bs "ok", false⟩

/-- A request map for `GET http://x`. -/
def sampleRequest : Request := ⟨bs "GET", bs "http://x", [], []⟩

/-! ## Facts about `strings.Split` and `strings.Join` -/

theorem hasPrefix_nil (s : GoString) : hasPrefix s [] = true := by
  cases s <;> rfl

theorem hasPrefix_append_self (p r : GoString) : hasPrefix (p ++ r) p = true := by
  induction p with
  | nil => exact hasPrefix_nil _
  | cons c p ih => simp [hasPrefix, ih]

/-- A separator found in front of `f ++ a :: u` lies inside `f` when `a` is not
one of its bytes. -/
theorem hasPrefix_of_append (a : Byte) (u : GoString) :
    ∀ (t f : GoString), a ∉ t → hasPrefix (f ++ a :: u) t = true → hasPrefix f t = true
  | [], f, _, _ => hasPrefix_nil f
  | d :: t, [], ha, h => by
    simp [hasPrefix] at h
    simp [h.1] at ha
  | d :: t, e :: f, ha, h => by
    simp only [List.cons_append, hasPrefix, Bool.and_eq_true] at h ⊢
    exact ⟨h.1, hasPrefix_of_append a u t f (fun hm => ha (List.mem_cons_of_mem _ hm)) h.2⟩

theorem splitGo_skip (sep : GoString) :
    ∀ (k : Nat) (s acc : GoString), splitGo sep k s acc = splitGo sep 0 (s.drop k) acc
  | 0, s, acc => by simp
  | k + 1, [], acc => by simp [splitGo]
  | k + 1, c :: s, acc => by
    rw [splitGo, splitGo_skip sep k s acc]
    simp

theorem splitGo_ne_nil (sep : GoString) :
    ∀ (s : GoString) (k : Nat) (acc : GoString), splitGo sep k s acc ≠ []
  | [], k, acc => by simp [splitGo]
  | c :: s, k + 1, acc => by
    rw [splitGo]
    exact splitGo_ne_nil sep s k acc
  | c :: s, 0, acc => by
    rw [splitGo]
    split
    · simp
    · exact splitGo_ne_nil sep s 0 _

/-- A string without the separator is one piece. -/
theorem splitGo_not_contains (sep : GoString) (hsep : sep ≠ []) :
    ∀ (f acc : GoString), contains f sep = false → splitGo sep 0 f acc = [acc ++ f]
  | [], acc, _ => by simp [splitGo]
  | c :: f, acc, h => by
    simp only [contains, Bool.or_eq_false_iff] at h
    rw [splitGo, if_neg (by simp [h.1]), splitGo_not_contains sep hsep f _ h.2]
    simp

/-- The first piece: a string without the separator, followed by the separator.
The separator `a :: t` does not overlap itself because `a` is not in `t`. -/
theorem splitGo_append_sep (a : Byte) (t : GoString) (ha : a ∉ t) (rest : GoString) :
    ∀ (f acc : GoString), contains f (a :: t) = false →
      splitGo (a :: t) 0 (f ++ (a :: t) ++ rest) acc
        = (acc ++ f) :: splitGo (a :: t) 0 rest []
  | [], acc, _ => by
    have h1 : hasPrefix (a :: (t ++ rest)) (a :: t) = true := by
      simpa using hasPrefix_append_self (a :: t) rest
    simp only [List.nil_append, List.cons_append, List.append_nil]
    rw [splitGo, if_pos h1, splitGo_skip]
    simp
  | c :: f, acc, h => by
    simp only [contains, Bool.or_eq_false_iff] at h
    have h1 : hasPrefix (c :: (f ++ (a :: t) ++ rest)) (a :: t) = false := by
      by_contra hc
      have hc' : hasPrefix (c :: (f ++ (a :: t) ++ rest)) (a :: t) = true := by simpa using hc
      simp only [hasPrefix, Bool.and_eq_true, List.append_assoc, List.cons_append] at hc'
      have h2 := hasPrefix_of_append a (t ++ rest) t f ha hc'.2
      have h3 : hasPrefix (c :: f) (a :: t) = true := by
        simp only [hasPrefix, Bool.and_eq_true]
        exact ⟨hc'.1, h2⟩
      rw [h3] at h
      exact Bool.noConfusion h.1
    simp only [List.cons_append]
    rw [splitGo, if_neg (by rw [h1]; simp), splitGo_append_sep a t ha rest f _ h.2]
    simp

theorem join_cons (sep a : GoString) (l : List GoString) (hl : l ≠ []) :
    join sep (a :: l) = a ++ sep ++ join sep l := by
  cases l with
  | nil => exact absurd rfl hl
  | cons b r => rfl

theorem hasPrefix_eq_append :
    ∀ (s p : GoString), hasPrefix s p = true → s = p ++ s.drop p.length
  | s, [], _ => by simp
  | [], d :: p, h => by simp [hasPrefix] at h
  | c :: s, d :: p, h => by
    simp only [hasPrefix, Bool.and_eq_true, beq_iff_eq] at h
    have := hasPrefix_eq_append s p h.2
    simp only [List.length_cons, List.drop_succ_cons, List.cons_append, List.cons.injEq]
    exact ⟨h.1, this⟩

/-- Joining the pieces with the separator gives the string back. -/
theorem join_splitGo (sep : GoString) (hsep : sep ≠ []) :
    ∀ (n : Nat) (s acc : GoString), s.length ≤ n → join sep (splitGo sep 0 s acc) = acc ++ s
  | _, [], acc, _ => by simp [splitGo, join]
  | 0, c :: s, acc, h => by simp at h
  | n + 1, c :: s, acc, h => by
    rw [splitGo]
    split
    · rename_i hp
      rw [join_cons _ _ _ (splitGo_ne_nil _ _ _ _), splitGo_skip,
        join_splitGo sep hsep n _ [] (by simp at h ⊢; omega)]
      have e := hasPrefix_eq_append (c :: s) sep hp
      obtain ⟨d, p, rfl⟩ := List.exists_cons_of_ne_nil hsep
      simp only [List.length_cons, List.drop_succ_cons, Nat.add_sub_cancel, List.nil_append] at e ⊢
      rw [List.append_assoc, ← e]
    · rw [join_splitGo sep hsep n s _ (by simpa using h)]
      simp

/-! ## Facts about the codec -/

theorem byte_ofNat_toNat (b : Byte) : UInt8.ofNat b.toNat = b := by
  apply UInt8.ext_iff.mpr
  show b.toNat % 256 = b.toNat
  exact Nat.mod_eq_of_lt (UInt8.toNat_lt b)

theorem hexDigit_facts :
    ∀ n, n < 16 → fromHexChar (hexDigit n) = some n ∧ hexDigit n ≠ 38 ∧ hexDigit n ≠ 61 := by
  decide

theorem hexDecode_hexEncode : ∀ v : GoString, hexDecode (hexEncode v) = some v
  | [] => rfl
  | b :: r => by
    have hb : b.toNat < 256 := UInt8.toNat_lt b
    have h1 := (hexDigit_facts (b.toNat / 16) (by omega)).1
    have h2 := (hexDigit_facts (b.toNat % 16) (by omega)).1
    have h3 : b.toNat / 16 * 16 + b.toNat % 16 = b.toNat := by omega
    simp only [hexEncode, hexDecode, h1, h2, hexDecode_hexEncode r, h3, byte_ofNat_toNat]

theorem contains_single (c : Byte) : ∀ s : GoString, contains s [c] = false ↔ c ∉ s
  | [] => by simp [contains, hasPrefix]
  | d :: s => by
    simp only [contains, hasPrefix, hasPrefix_nil, Bool.and_true, Bool.or_eq_false_iff,
      contains_single c s, List.mem_cons, not_or, beq_eq_false_iff_ne, ne_eq]
    constructor
    · rintro ⟨h1, h2⟩
      exact ⟨fun h => h1 h.symm, h2⟩
    · rintro ⟨h1, h2⟩
      exact ⟨fun h => h1 h.symm, h2⟩

theorem hexEncode_not_mem (c : Byte) (hc : c = 38 ∨ c = 61) : ∀ v : GoString, c ∉ hexEncode v
  | [] => by simp [hexEncode]
  | b :: r => by
    have hb : b.toNat < 256 := UInt8.toNat_lt b
    have h1 := (hexDigit_facts (b.toNat / 16) (by omega)).2
    have h2 := (hexDigit_facts (b.toNat % 16) (by omega)).2
    have ih := hexEncode_not_mem c hc r
    simp only [hexEncode, List.mem_cons, not_or]
    rcases hc with rfl | rfl
    · exact ⟨fun h => h1.1 h.symm, fun h => h2.1 h.symm, ih⟩
    · exact ⟨fun h => h1.2 h.symm, fun h => h2.2 h.symm, ih⟩

theorem bs_amp : bs "&" = [38] := by decide

theorem bs_eq : bs "=" = [61] := by decide

theorem segment_no_amp (e : GoString × GoString) (hk : contains e.1 (bs "&") = false) :
    contains (segment e) (bs "&") = false := by
  rw [bs_amp, contains_single] at *
  simp only [segment, bs_eq, List.mem_append, List.mem_singleton, not_or]
  exact ⟨⟨hk, by decide⟩, hexEncode_not_mem 38 (Or.inl rfl) e.2⟩

theorem encodeBuf_cons (e : GoString × GoString) (m : GoMap) :
    encodeBuf (e :: m) = bs "&" ++ segment e ++ encodeBuf m := by
  obtain ⟨k, v⟩ := e
  simp [encodeBuf, segment]

/-- The segments of a buffer are those of its entries. -/
theorem splitGo_encodeBuf :
    ∀ (m : GoMap) (e : GoString × GoString),
      (∀ x ∈ e :: m, contains x.1 (bs "&") = false) →
      splitGo (bs "&") 0 (segment e ++ encodeBuf m) [] = (e :: m).map segment
  | [], e, h => by
    have := splitGo_not_contains (bs "&") (by decide) (segment e) []
      (segment_no_amp e (h e (List.mem_cons_self _ _)))
    simpa [encodeBuf] using this
  | e' :: m, e, h => by
    have h1 := segment_no_amp e (h e (List.mem_cons_self _ _))
    have h2 := splitGo_encodeBuf m e' (fun x hx => h x (List.mem_cons_of_mem _ hx))
    rw [bs_amp] at h1 h2 ⊢
    have h3 := splitGo_append_sep 38 [] (by simp) (segment e' ++ encodeBuf m) (segment e) [] h1
    rw [encodeBuf_cons, bs_amp, List.append_assoc [38], ← List.append_assoc (segment e), h3, h2]
    simp

theorem set_append_new :
    ∀ (m : GoMap) (k v : GoString), (∀ x ∈ m, x.1 ≠ k) → GoMap.set m k v = m ++ [(k, v)]
  | [], k, v, _ => rfl
  | (k', v') :: m, k, v, h => by
    have h1 : k' ≠ k := h (k', v') (List.mem_cons_self _ _)
    simp only [GoMap.set, if_neg h1, List.cons_append, List.cons.injEq, true_and]
    exact set_append_new m k v (fun x hx => h x (List.mem_cons_of_mem _ hx))

theorem decodeStep_segment (m : GoMap) (e : GoString × GoString)
    (hk : contains e.1 (bs "=") = false) :
    decodeStep m (segment e) = some (GoMap.set m e.1 e.2) := by
  have hne : segment e ≠ [] := by simp [segment, bs_eq]
  have h1 : contains (hexEncode e.2) (bs "=") = false := by
    rw [bs_eq, contains_single]
    exact hexEncode_not_mem 61 (Or.inr rfl) e.2
  have h2 : split (segment e) (bs "=") = [e.1, hexEncode e.2] := by
    rw [bs_eq] at hk h1 ⊢
    have h3 := splitGo_append_sep 61 [] (by simp) (hexEncode e.2) e.1 [] hk
    have h4 := splitGo_not_contains [61] (by simp) (hexEncode e.2) [] h1
    simp only [split, segment, bs_eq]
    rw [if_neg (by simp), h3, h4]
    simp
  simp only [decodeStep, hne, ne_eq, not_false_eq_true, if_true, h2, hexDecode_hexEncode,
    Option.getD_some]

theorem decodeLoop_segments :
    ∀ (m acc : GoMap), (∀ x ∈ m, contains x.1 (bs "=") = false) →
      ((acc ++ m).map Prod.fst).Nodup →
      decodeLoop (m.map segment) acc = some (acc ++ m)
  | [], acc, _, _ => by simp [decodeLoop]
  | e :: m, acc, h, hn => by
    have h1 := decodeStep_segment acc e (h e (List.mem_cons_self _ _))
    have h2 : ∀ x ∈ acc, x.1 ≠ e.1 := by
      intro x hx hxe
      rw [List.map_append, List.nodup_append] at hn
      exact hn.2.2 (List.mem_map_of_mem Prod.fst hx) (by simp [hxe])
    rw [set_append_new acc e.1 e.2 h2] at h1
    simp only [List.map_cons, decodeLoop, h1]
    have h3 := decodeLoop_segments m (acc ++ [(e.1, e.2)])
      (fun x hx => h x (List.mem_cons_of_mem _ hx)) (by simpa using hn)
    simpa using h3

/-! ## Facts about the framing -/

theorem writeHeader_body (r : ResponseWriter) (code : Int) :
    (r.writeHeader code).body = r.body := by
  unfold ResponseWriter.writeHeader
  split <;> rfl

theorem setHeader_body (r : ResponseWriter) (k v : GoString) : (r.setHeader k v).body = r.body :=
  rfl

theorem write_body (r : ResponseWriter) (b : GoString) : (r.write b).body = r.body ++ b := rfl

theorem toNat_ofNat (n : Nat) : (UInt8.ofNat n).toNat = n % 256 := rfl

theorem fromBE_be32 (n : Nat) (h : n < 4294967296) : fromBE (be32 n) = n := by
  simp only [fromBE, be32, List.foldl_cons, List.foldl_nil, toNat_ofNat]
  omega

theorem be32_length (n : Nat) : (be32 n).length = 4 := rfl

theorem parsePayload_framePayload (a b c : Nat) (h ct : GoString) (ha : a < 4294967296)
    (hb : b < 4294967296) (hc : c < 4294967296) (hbl : h.length = b) (hcl : ct.length = c) :
    parsePayload (be32 a ++ be32 b ++ be32 c ++ h ++ ct) = some (a, b, c, h, ct) := by
  have e1 : (be32 a ++ be32 b ++ be32 c ++ h ++ ct).take 4 = be32 a := by
    simp [List.append_assoc, List.take_append_eq_append_take, be32_length]
  have e2 : ((be32 a ++ be32 b ++ be32 c ++ h ++ ct).drop 4).take 4 = be32 b := by
    simp [List.append_assoc, List.drop_append_eq_append_drop, List.take_append_eq_append_take,
      be32_length]
  have e3 : ((be32 a ++ be32 b ++ be32 c ++ h ++ ct).drop 8).take 4 = be32 c := by
    simp [List.append_assoc, List.drop_append_eq_append_drop, List.take_append_eq_append_take,
      be32_length]
  have e4 : (be32 a ++ be32 b ++ be32 c ++ h ++ ct).drop 12 = h ++ ct := by
    simp [List.append_assoc, List.drop_append_eq_append_drop, be32_length]
    rfl
  have e5 : (be32 a ++ be32 b ++ be32 c ++ h ++ ct).length = 12 + b + c := by
    simp [be32_length, hbl, hcl]
    omega
  have e6 : (be32 a ++ be32 b ++ be32 c ++ h ++ ct).drop (12 + b) = ct := by
    rw [← List.drop_drop, e4, ← hbl]
    simp
  unfold parsePayload
  simp only [e1, e2, e3, e4, e5, e6, fromBE_be32 _ ha, fromBE_be32 _ hb, fromBE_be32 _ hc]
  rw [if_neg (by omega), if_neg (by omega)]
  simp [← hbl, ← hcl]

theorem decodeStep_malformed (m : GoMap) (kv : GoString) (hne : kv ≠ [])
    (hk : contains kv (bs "=") = false) : decodeStep m kv = none := by
  have h := splitGo_not_contains (bs "=") (by decide) kv [] hk
  simp only [decodeStep, split, hne, ne_eq, not_false_eq_true, if_true]
  rw [if_neg (by decide), h]

/-- A non-empty segment without `=` makes `decodeData` panic, wherever it stands
among well-formed segments. -/
theorem decodeLoop_malformed :
    ∀ (segs : List GoString) (m : GoMap),
      (∃ kv ∈ segs, kv ≠ [] ∧ contains kv (bs "=") = false) → decodeLoop segs m = none
  | [], _, h => by simp at h
  | kv :: r, m, h => by
    rw [decodeLoop]
    cases hs : decodeStep m kv with
    | none => rfl
    | some m' =>
      obtain ⟨x, hx, hne, hk⟩ := h
      rcases List.mem_cons.mp hx with rfl | hx
      · rw [decodeStep_malformed m x hne hk] at hs
        exact Option.noConfusion hs
      · exact decodeLoop_malformed r m' ⟨x, hx, hne, hk⟩

/-! ## Facts about the folding loop -/

theorem set_last_eq_appendToLast (sc : GoString) :
    ∀ (l : List GoString), l ≠ [] →
      ∃ x, l[l.length - 1]? = some x ∧
        l.set (l.length - 1) (x ++ bs ", " ++ sc) = appendToLast l sc
  | [], h => absurd rfl h
  | [a], _ => ⟨a, rfl, rfl⟩
  | a :: b :: r, _ => by
    obtain ⟨x, h1, h2⟩ := set_last_eq_appendToLast sc (b :: r) (by simp)
    refine ⟨x, ?_, ?_⟩
    · simpa using h1
    · simp only [List.length_cons, Nat.add_sub_cancel, List.set_cons_succ, appendToLast,
        List.cons.injEq, true_and] at h2 ⊢
      exact h2

theorem appendToLast_length (sc : GoString) :
    ∀ (l : List GoString), l ≠ [] → (appendToLast l sc).length = l.length
  | [], h => absurd rfl h
  | [a], _ => rfl
  | a :: b :: r, _ => by
    simp only [appendToLast, List.length_cons, Nat.add_right_cancel_iff]
    simpa using appendToLast_length sc (b :: r) (by simp)

/-- The loop keeps `i = len(cookies) - 1`, never leaves the slice, and builds the
entries of the rule "a fragment that does not match starts a new cookie". -/
theorem foldLoop_eq :
    ∀ (frags cookies : List GoString),
      foldLoop frags (cookies, (cookies.length : Int) - 1)
        = some (entriesBy (fun sc => !regexMatch sc) frags cookies,
            ((entriesBy (fun sc => !regexMatch sc) frags cookies).length : Int) - 1)
  | [], cookies => rfl
  | sc :: r, cookies => by
    rw [foldLoop, entriesBy]
    by_cases hc : cookies = []
    · subst hc
      have h1 : foldStep ([], ((([] : List GoString).length : Int) - 1)) sc = some ([sc], 0) := by
        simp [foldStep]
      rw [h1, if_pos (Or.inl rfl)]
      exact foldLoop_eq r [sc]
    · have hl : 0 < cookies.length := List.length_pos.mpr hc
      by_cases hm : regexMatch sc = true
      · obtain ⟨x, h1, h2⟩ := set_last_eq_appendToLast sc cookies hc
        have h3 : ((cookies.length : Int) - 1).toNat = cookies.length - 1 := by omega
        have h4 : foldStep (cookies, (cookies.length : Int) - 1) sc
            = some (appendToLast cookies sc, ((appendToLast cookies sc).length : Int) - 1) := by
          simp only [foldStep, hm, h3, h1, h2, appendToLast_length sc cookies hc]
          rw [if_pos ⟨by omega, trivial⟩]
        rw [h4, if_neg (by simp [hc, hm])]
        exact foldLoop_eq r (appendToLast cookies sc)
      · have h4 : foldStep (cookies, (cookies.length : Int) - 1) sc
            = some (cookies ++ [sc], ((cookies ++ [sc]).length : Int) - 1) := by
          simp only [foldStep, hm, and_false, if_false, List.length_append, List.length_singleton]
          simp
        rw [h4, if_pos (Or.inr (by simp [hm]))]
        exact foldLoop_eq r (cookies ++ [sc])

theorem foldedCookies_eq (v : GoString) :
    foldedCookies v = some (entriesBy (fun sc => !regexMatch sc) (split v (bs ", ")) []) := by
  have h := foldLoop_eq (split v (bs ", ")) []
  simp only [List.length_nil, Int.Nat.cast_ofNat_Int, Int.zero_sub] at h
  simp [foldedCookies, h]

theorem entriesBy_all_new (startsNew : GoString → Bool) :
    ∀ (frags es : List GoString), (∀ f ∈ frags, startsNew f = true) →
      entriesBy startsNew frags es = es ++ frags
  | [], es, _ => by simp [entriesBy]
  | f :: r, es, h => by
    rw [entriesBy, if_pos (Or.inr (h f (List.mem_cons_self _ _))),
      entriesBy_all_new startsNew r _ (fun x hx => h x (List.mem_cons_of_mem _ hx))]
    simp

theorem join_append_cons (sep a f : GoString) (r : List GoString) :
    join sep ((a ++ sep ++ f) :: r) = a ++ sep ++ join sep (f :: r) := by
  cases r with
  | nil => rfl
  | cons b r => simp [join, List.append_assoc]

theorem entriesBy_all_continue (startsNew : GoString → Bool) :
    ∀ (frags : List GoString) (a : GoString), (∀ f ∈ frags, startsNew f = false) →
      entriesBy startsNew frags [a] = [join (bs ", ") (a :: frags)]
  | [], a, _ => rfl
  | f :: r, a, h => by
    have hf := h f (List.mem_cons_self _ _)
    rw [entriesBy, if_neg (by simp [hf]), appendToLast,
      entriesBy_all_continue startsNew r _ (fun x hx => h x (List.mem_cons_of_mem _ hx)),
      join_append_cons]
    rfl

/-- Splitting a joined list of pieces gives the pieces back, when no piece holds
the separator and the separator cannot overlap itself. -/
theorem splitGo_join (a : Byte) (t : GoString) (ha : a ∉ t) :
    ∀ (fs : List GoString), fs ≠ [] → (∀ f ∈ fs, contains f (a :: t) = false) →
      splitGo (a :: t) 0 (join (a :: t) fs) [] = fs
  | [], h, _ => absurd rfl h
  | [f], _, hc => by
    simpa [join] using splitGo_not_contains (a :: t) (by simp) f [] (hc f (by simp))
  | f :: g :: r, _, hc => by
    have h1 := splitGo_append_sep a t ha (join (a :: t) (g :: r)) f [] (hc f (by simp))
    have h2 := splitGo_join a t ha (g :: r) (by simp)
      (fun x hx => hc x (List.mem_cons_of_mem _ hx))
    rw [join, h1, h2]
    simp

theorem bs_comma_space : bs ", " = [44, 32] := by decide

/-! ## Facts about the handler -/

theorem encodeData_cons (e : GoString × GoString) (m : GoMap) :
    encodeData (e :: m) = some (segment e ++ encodeBuf m) := by
  simp [encodeData, encodeBuf_cons, bs_amp]

theorem set_ne_nil (m : GoMap) (k v : GoString) : GoMap.set m k v ≠ [] := by
  cases m with
  | nil => simp [GoMap.set]
  | cons e m =>
    obtain ⟨k', v'⟩ := e
    simp only [GoMap.set]
    split <;> simp

/-- What `printResponse` does to the record of the call, for a non-empty header map. -/
theorem printResponse_record (env : Env) (w : World) (status : Int) (header : GoMap)
    (content : GoString) (hne : header ≠ []) :
    (printResponse env w status header content).calls
        = w.calls ++ [{ status := status, header := header, content := content }] ∧
    (printResponse env w status header content).attempts = w.attempts ∧
    (printResponse env w status header content).panicked = w.panicked := by
  obtain ⟨e, m, rfl⟩ := List.exists_cons_of_ne_nil hne
  simp only [printResponse, encodeData_cons]
  split
  · split <;> exact ⟨rfl, rfl, rfl⟩
  · exact ⟨rfl, rfl, rfl⟩

theorem printNotify_record (env : Env) (w : World) (method url : GoString) (status : Int)
    (text : GoString) :
    (printNotify env w method url status text).calls
        = w.calls ++ [notification method url status text] ∧
    (printNotify env w method url status text).attempts = w.attempts ∧
    (printNotify env w method url status text).panicked = w.panicked :=
  printResponse_record env w status _ _ (by simp)

theorem copyHeaders_isSome (env : Env) :
    ∀ (l : List (GoString × GoString)) (header : GoMap), ∃ h, copyHeaders env l header = some h
  | [], header => ⟨header, rfl⟩
  | (k, v) :: r, header => by
    rw [copyHeaders]
    split
    · exact copyHeaders_isSome env r _
    · simp only [foldCookies, foldedCookies_eq, Option.map_some']
      exact copyHeaders_isSome env r _

/-- The header map of a response is always built, and is never empty. -/
theorem responseHeader_isSome (env : Env) (resp : Response) :
    ∃ h, responseHeader env resp = some h ∧ h ≠ [] := by
  obtain ⟨h, hh⟩ := copyHeaders_isSome env resp.header []
  simp only [responseHeader, hh]
  exact ⟨_, rfl, set_ne_nil _ _ _⟩

/-- A failed round trip that is not classified as an invalid URL leads to the
next round, with the message added to `errors` and the attempt recorded. -/
theorem fetchLoop_retry (env : Env) (tr : Transport) (method url : GoString) (n i : Nat)
    (req : Request) (deadline : Nat) (errors : List GoString) (w : World) (m : GoString)
    (h : tr i = RoundTrip.failure m)
    (hr : contains m (bs "DEADLINE_EXCEEDED") = true ∨ contains m (bs "FETCH_ERROR") = true ∨
      contains m (bs "INVALID_URL") = false) :
    ∃ req' deadline',
      fetchLoop env tr method url (n + 1) i (some req) deadline errors w
        = fetchLoop env tr method url n (i + 1) (some req') deadline' (errors ++ [m])
            { w with attempts := w.attempts ++ [{ deadline := deadline, header := req.header }] } := by
  rw [fetchLoop]
  simp only [h]
  by_cases h1 : contains m (bs "DEADLINE_EXCEEDED") = true
  · rw [if_pos h1]
    exact ⟨_, _, rfl⟩
  · rw [if_neg h1]
    by_cases h2 : contains m (bs "FETCH_ERROR") = true
    · rw [if_pos h2]
      exact ⟨_, _, rfl⟩
    · rw [if_neg h2]
      have h3 : contains m (bs "INVALID_URL") = false := by
        rcases hr with hr | hr | hr
        · exact absurd hr h1
        · exact absurd hr h2
        · exact hr
      rw [if_neg (by simp [h3])]
      split
      · exact ⟨_, _, rfl⟩
      · exact ⟨_, _, rfl⟩

theorem printResponse_attempts (env : Env) (w : World) (status : Int) (header : GoMap)
    (content : GoString) : (printResponse env w status header content).attempts = w.attempts := by
  unfold printResponse
  split
  · rfl
  · split
    · split <;> rfl
    · rfl

theorem printResponse_calls (env : Env) (w : World) (status : Int) (header : GoMap)
    (content : GoString) :
    (printResponse env w status header content).calls = w.calls ++ [⟨status, header, content⟩] := by
  unfold printResponse
  split
  · rfl
  · split
    · split <;> rfl
    · rfl

theorem contains_true_of_ne_false {m p : GoString} (h : ¬ contains m p = true) :
    contains m p = false := by
  simpa using h

/-- One round of the loop on a failure that is not classified as an invalid URL:
the next round starts with the deadline doubled or kept and the `Range` header
set or not, as the message is classified. -/
theorem fetchLoop_step (env : Env) (tr : Transport) (method url : GoString) (n i : Nat)
    (req : Request) (deadline : Nat) (errors : List GoString) (w : World) (m : GoString)
    (h : tr i = RoundTrip.failure m) (hr : isInvalidURL m = false) :
    fetchLoop env tr method url (n + 1) i (some req) deadline errors w
      = fetchLoop env tr method url n (i + 1)
          (some (if isTooLarge m then
              req.setHeader env (bs "Range") (bs "bytes=0-" ++ itoa FetchMaxSize) else req))
          (if doublesDeadline m then deadline * 2 else deadline) (errors ++ [m])
          { w with attempts := w.attempts ++ [{ deadline := deadline, header := req.header }] } := by
  rw [fetchLoop]
  simp only [h]
  by_cases h1 : contains m (bs "DEADLINE_EXCEEDED") = true
  · simp [h1, isTooLarge, doublesDeadline]
  · have h1' := contains_true_of_ne_false h1
    by_cases h2 : contains m (bs "FETCH_ERROR") = true
    · simp [h1', h2, isTooLarge, doublesDeadline]
    · have h2' := contains_true_of_ne_false h2
      have h3 : contains m (bs "INVALID_URL") = false := by
        simpa [isInvalidURL, h1', h2'] using hr
      by_cases h4 : contains m (bs "RESPONSE_TOO_LARGE") = true
      · simp [h1', h2', h3, h4, isTooLarge, doublesDeadline]
      · have h4' := contains_true_of_ne_false h4
        simp [h1', h2', h3, h4', isTooLarge, doublesDeadline]

/-- One round of the loop on a result after which no round trip follows. -/
theorem fetchLoop_terminal_attempts (env : Env) (tr : Transport) (method url : GoString)
    (n i : Nat) (req : Request) (deadline : Nat) (errors : List GoString) (w : World)
    (h : (tr i).terminal = true) :
    (fetchLoop env tr method url (n + 1) i (some req) deadline errors w).attempts
      = w.attempts ++ [{ deadline := deadline, header := req.header }] := by
  rw [fetchLoop]
  cases ht : tr i with
  | failure m =>
    rw [ht] at h
    simp only [RoundTrip.terminal, isInvalidURL, Bool.and_eq_true, Bool.not_eq_true',
      ] at h
    simp only [h.1.1, h.1.2, h.2, Bool.false_eq_true, if_false, if_true]
    exact (printNotify_record env _ method url 501 _).2.1
  | success resp =>
    simp only
    split
    · rfl
    · exact printResponse_attempts env _ _ _ _

theorem doublings_shift (tr : Transport) (i : Nat) :
    ∀ j, doublings tr i (j + 1) = (if (tr i).doubles then 1 else 0) + doublings tr (i + 1) j
  | 0 => by simp [doublings]
  | j + 1 => by
    rw [doublings, doublings_shift tr i j, doublings]
    have e : i + (j + 1) = i + 1 + j := by omega
    rw [e]
    omega

theorem tooLargeBefore_shift (tr : Transport) (i : Nat) :
    ∀ j, tooLargeBefore tr i (j + 1) = ((tr i).tooLarge || tooLargeBefore tr (i + 1) j)
  | 0 => by simp [tooLargeBefore]
  | j + 1 => by
    rw [tooLargeBefore, tooLargeBefore_shift tr i j, tooLargeBefore]
    have e : i + (j + 1) = i + 1 + j := by omega
    rw [e, Bool.or_assoc]

theorem set_set_same :
    ∀ (m : GoMap) (k v : GoString), GoMap.set (GoMap.set m k v) k v = GoMap.set m k v
  | [], k, v => by simp [GoMap.set]
  | (k', v') :: m, k, v => by
    by_cases h : k' = k
    · simp [GoMap.set, h]
    · simp [GoMap.set, h, set_set_same m k v]

/-- The round trips of the loop: at most `n`, none after a terminal result, and
the `j`-th of them is issued with the deadline doubled once for every earlier
doubling failure and with the `Range` header set once an earlier failure was a
response too large. -/
theorem fetchLoop_trace (env : Env) (tr : Transport) (method url : GoString) :
    ∀ (n i : Nat) (req : Request) (d : Nat) (errors : List GoString) (w : World),
      ∃ L : List Attempt,
        (fetchLoop env tr method url n i (some req) d errors w).attempts = w.attempts ++ L ∧
        L.length ≤ n ∧
        (∀ k, (tr (i + k)).terminal = true → L.length ≤ k + 1) ∧
        (∀ j a, L[j]? = some a →
          a.deadline = d * 2 ^ doublings tr i j ∧
          a.header = if tooLargeBefore tr i j then
              (req.setHeader env (bs "Range") (bs "bytes=0-" ++ itoa FetchMaxSize)).header
            else req.header)
  | 0, i, req, d, errors, w => by
    refine ⟨[], ?_, Nat.le_refl _, fun _ _ => Nat.zero_le _, ?_⟩
    · rw [fetchLoop, List.append_nil]
      exact (printNotify_record env w method url 502 _).2.1
    · intro j a h
      simp at h
  | n + 1, i, req, d, errors, w => by
    by_cases ht : (tr i).terminal = true
    · refine ⟨[⟨d, req.header⟩], fetchLoop_terminal_attempts env tr method url n i req d errors w ht,
        by simp, fun _ _ => by simp, ?_⟩
      intro j a h
      cases j with
      | zero =>
        simp only [List.getElem?_cons_zero, Option.some.injEq] at h
        subst h
        simp [doublings, tooLargeBefore]
      | succ j => simp at h
    · cases hm : tr i with
      | success resp =>
        rw [hm] at ht
        exact absurd rfl ht
      | failure m =>
        have hr : isInvalidURL m = false := by
          rw [hm] at ht
          simpa [RoundTrip.terminal] using ht
        obtain ⟨L, h1, h2, h3, h4⟩ := fetchLoop_trace env tr method url n (i + 1)
          (if isTooLarge m then
            req.setHeader env (bs "Range") (bs "bytes=0-" ++ itoa FetchMaxSize) else req)
          (if doublesDeadline m then d * 2 else d) (errors ++ [m])
          { w with attempts := w.attempts ++ [{ deadline := d, header := req.header }] }
        refine ⟨⟨d, req.header⟩ :: L, ?_, by simpa using h2, ?_, ?_⟩
        · rw [fetchLoop_step env tr method url n i req d errors w m hm hr, h1]
          simp
        · intro k hk
          cases k with
          | zero => exact absurd hk ht
          | succ k =>
            have e : i + (k + 1) = i + 1 + k := by omega
            rw [e] at hk
            have := h3 k hk
            simp only [List.length_cons]
            omega
        · intro j a h
          cases j with
          | zero =>
            simp only [List.getElem?_cons_zero, Option.some.injEq] at h
            subst h
            simp [doublings, tooLargeBefore]
          | succ j =>
            simp only [List.getElem?_cons_succ] at h
            obtain ⟨h5, h6⟩ := h4 j a h
            rw [doublings_shift, tooLargeBefore_shift, hm]
            simp only [RoundTrip.doubles, RoundTrip.tooLarge]
            constructor
            · rw [h5]
              by_cases hd : doublesDeadline m = true
              · simp only [hd, if_true, pow_add, pow_one]
                ring
              · simp [hd]
            · rw [h6]
              by_cases hl : isTooLarge m = true
              · simp [hl, Request.setHeader, set_set_same]
              · simp [hl]

/-- A property of the state that survives the recording of a round trip, a panic
and every `printResponse` with a non-empty header map survives the retry loop. -/
theorem fetchLoop_induct (env : Env) (tr : Transport) (method url : GoString) (P : World → Prop)
    (hattempt : ∀ (w : World) (a : Attempt), P w → P { w with attempts := w.attempts ++ [a] })
    (hpanic : ∀ w : World, P w → P { w with panicked := true })
    (hprint : ∀ (w : World) (status : Int) (header : GoMap) (content : GoString),
      header ≠ [] → P w → P (printResponse env w status header content)) :
    ∀ (n i : Nat) (req : Option Request) (d : Nat) (errors : List GoString) (w : World),
      P w → P (fetchLoop env tr method url n i req d errors w)
  | 0, i, req, d, errors, w, hw => by
    rw [fetchLoop]
    exact hprint w _ _ _ (by simp) hw
  | n + 1, i, none, d, errors, w, hw => by
    rw [fetchLoop]
    exact hpanic w hw
  | n + 1, i, some req, d, errors, w, hw => by
    have hw' := hattempt w { deadline := d, header := req.header } hw
    rw [fetchLoop]
    cases tr i with
    | failure m =>
      simp only
      split
      · exact fetchLoop_induct env tr method url P hattempt hpanic hprint n _ _ _ _ _ hw'
      · split
        · exact fetchLoop_induct env tr method url P hattempt hpanic hprint n _ _ _ _ _ hw'
        · split
          · exact hprint _ _ _ _ (by simp) hw'
          · split
            · exact fetchLoop_induct env tr method url P hattempt hpanic hprint n _ _ _ _ _ hw'
            · exact fetchLoop_induct env tr method url P hattempt hpanic hprint n _ _ _ _ _ hw'
    | success resp =>
      simp only
      obtain ⟨h, hh, hne⟩ := responseHeader_isSome env resp
      rw [hh]
      exact hprint _ _ _ _ hne hw'

theorem printNotify_panicked (env : Env) (w : World) (method url : GoString) (status : Int)
    (text : GoString) : (printNotify env w method url status text).panicked = w.panicked :=
  (printNotify_record env w method url status text).2.2

/-- With no password configured and no panic so far, `post` runs the header loop
and then the retry loop on the state left by the two checks. -/
theorem handle_eq (env : Env) (tr : Transport) (request : GoMap) (w : World)
    (hw : w.panicked = false) :
    handle env tr request w
      = match setHeaders env (split (GoMap.get request (bs "headers")) (bs "\r\n"))
            (newRequest env request) with
        | none => { prelude env request w with panicked := true }
        | some r =>
          fetchLoop env tr (GoMap.get request (bs "method")) (GoMap.get request (bs "url"))
            FetchMax 0 r Deadline [] (prelude env request w) := by
  have hp : ¬ (Password ≠ bs "") := by decide
  simp only [handle, hp, if_false, World.andThen]
  by_cases h1 : hasPrefix (GoMap.get request (bs "url")) (bs "http") = true <;>
    by_cases h2 : env.parseURL (GoMap.get request (bs "url")) = true <;>
    simp [prelude, newRequest, h1, h2, hw, printNotify_panicked]

theorem prelude_induct (env : Env) (request : GoMap) (P : World → Prop)
    (hprint : ∀ (w : World) (status : Int) (header : GoMap) (content : GoString),
      header ≠ [] → P w → P (printResponse env w status header content))
    (w : World) (hw : P w) : P (prelude env request w) := by
  unfold prelude
  simp only
  split
  · split
    · exact hw
    · exact hprint _ _ _ _ (by simp) hw
  · split
    · exact hprint _ _ _ _ (by simp) hw
    · exact hprint _ _ _ _ (by simp) (hprint _ _ _ _ (by simp) hw)

/-- A property of the state that holds at the start of a call and survives the
recording of a round trip, a panic and every `printResponse` with a non-empty
header map holds when `post` is over. -/
theorem post_induct (env : Env) (tr : Transport) (body : GoString) (P : World → Prop)
    (hinit : P World.init)
    (hattempt : ∀ (w : World) (a : Attempt), P w → P { w with attempts := w.attempts ++ [a] })
    (hpanic : ∀ w : World, P w → P { w with panicked := true })
    (hprint : ∀ (w : World) (status : Int) (header : GoMap) (content : GoString),
      header ≠ [] → P w → P (printResponse env w status header content)) :
    P (post env tr body) := by
  unfold post
  split
  · exact hinit
  · split
    · exact hinit
    · split
      · exact hpanic _ hinit
      · rename_i request _
        rw [handle_eq env tr request World.init rfl]
        have hpre := prelude_induct env request P hprint World.init hinit
        split
        · exact hpanic _ hpre
        · exact fetchLoop_induct env tr _ _ P hattempt hpanic hprint _ _ _ _ _ _ hpre

/-! ## Facts about maps and the header map of a response -/

theorem get?_set_self :
    ∀ (m : GoMap) (k v : GoString), GoMap.get? (GoMap.set m k v) k = some v
  | [], k, v => by simp [GoMap.set, GoMap.get?]
  | (k', v') :: m, k, v => by
    by_cases h : k' = k
    · simp [GoMap.set, GoMap.get?, h]
    · simp [GoMap.set, GoMap.get?, h, get?_set_self m k v]

theorem get?_set_ne :
    ∀ (m : GoMap) (k k' v : GoString), k' ≠ k → GoMap.get? (GoMap.set m k' v) k = GoMap.get? m k
  | [], k, k', v, h => by simp [GoMap.set, GoMap.get?, h]
  | (k₀, v₀) :: m, k, k', v, h => by
    by_cases h0 : k₀ = k'
    · subst h0
      simp [GoMap.set, GoMap.get?, h]
    · by_cases h1 : k₀ = k
      · subst h1
        simp [GoMap.set, GoMap.get?, h0]
      · simp [GoMap.set, GoMap.get?, h0, h1, get?_set_ne m k k' v h]

theorem get?_eq_none_of_not_mem :
    ∀ (m : GoMap) (k : GoString), k ∉ m.map Prod.fst → GoMap.get? m k = none
  | [], _, _ => rfl
  | (k', v) :: m, k, h => by
    have h1 : k' ≠ k := fun e => h (by simp [e])
    have h2 : k ∉ m.map Prod.fst := fun e => h (List.mem_cons_of_mem _ e)
    simp only [GoMap.get?, if_neg h1]
    exact get?_eq_none_of_not_mem m k h2

/-- A header other than `Set-Cookie` is copied as the upstream supplied it. -/
theorem copyHeaders_get? (env : Env) (k : GoString) (hk1 : env.toLower k ≠ bs "set-cookie")
    (hk2 : k ≠ bs "Set-Cookie") :
    ∀ (l : List (GoString × GoString)) (header h : GoMap), (l.map Prod.fst).Nodup →
      copyHeaders env l header = some h →
      GoMap.get? h k = (match GoMap.get? l k with
        | some v => some v
        | none => GoMap.get? header k)
  | [], header, h, _, e => by
    simp only [copyHeaders, Option.some.injEq] at e
    simp [GoMap.get?, e]
  | (k', v') :: r, header, h, hn, e => by
    simp only [List.map_cons, List.nodup_cons] at hn
    rw [copyHeaders] at e
    by_cases hc : env.toLower k' = bs "set-cookie"
    · have hkk : k' ≠ k := fun e' => hk1 (e' ▸ hc)
      rw [if_neg (by simp [hc])] at e
      cases hf : foldCookies v' with
      | none => simp [hf] at e
      | some c =>
        simp only [hf] at e
        rw [copyHeaders_get? env k hk1 hk2 r _ h hn.2 e, get?_set_ne _ _ _ _ (Ne.symm hk2)]
        simp [GoMap.get?, hkk]
    · rw [if_pos hc] at e
      rw [copyHeaders_get? env k hk1 hk2 r _ h hn.2 e]
      by_cases hkk : k' = k
      · subst hkk
        simp [GoMap.get?, get?_eq_none_of_not_mem r k' hn.1, get?_set_self]
      · simp [GoMap.get?, hkk, get?_set_ne _ _ _ _ hkk]

theorem fetchLoop_success (env : Env) (tr : Transport) (method url : GoString) (n i : Nat)
    (req : Request) (d : Nat) (errors : List GoString) (w : World) (resp : Response)
    (header : GoMap) (h : tr i = RoundTrip.success resp) (hh : responseHeader env resp = some header) :
    fetchLoop env tr method url (n + 1) i (some req) d errors w
      = printResponse env
          { w with attempts := w.attempts ++ [{ deadline := d, header := req.header }] }
          resp.status header resp.content := by
  rw [fetchLoop]
  simp only [h, hh]

/-! ## Facts about the envelope and the discriminator -/

theorem writeHeader_status (r : ResponseWriter) (h : r.status = none ∨ r.status = some 200) :
    (r.writeHeader 200).status = some 200 := by
  unfold ResponseWriter.writeHeader
  rcases h with h | h <;> simp [h]

theorem writeHeader_sent (r : ResponseWriter) (h1 : r.status = none → r.header = [])
    (h2 : r.sent = []) : (r.writeHeader 200).sent = [] := by
  unfold ResponseWriter.writeHeader
  cases hs : r.status with
  | none => exact h1 hs
  | some c => exact h2

/-- The writer after the calls of `printResponse` on a non-empty header map. -/
theorem printResponse_response (env : Env) (w : World) (status : Int) (header : GoMap)
    (content h : GoString) (hh : encodeData header = some h) :
    (printResponse env w status header content).response
      = ((w.response.writeHeader 200).setHeader (bs "Content-Type") (bs "image/gif")).write
          (if isTextual header then
            bs "1" ++ (if env.newWriterOk then env.deflate (framePayload status h content) else [])
          else bs "0" ++ framePayload status h content) := by
  simp only [printResponse, hh, framePayload]
  split
  · split <;> simp [ResponseWriter.write, List.append_assoc]
  · simp [ResponseWriter.write, List.append_assoc]

theorem enveloped_printResponse (env : Env) (w : World) (status : Int) (header : GoMap)
    (content : GoString) (hne : header ≠ []) (hw : Enveloped w) :
    Enveloped (printResponse env w status header content) := by
  obtain ⟨e, m, rfl⟩ := List.exists_cons_of_ne_nil hne
  have hr := printResponse_response env w status (e :: m) content _ (encodeData_cons e m)
  have hs : (printResponse env w status (e :: m) content).response.status = some 200 := by
    rw [hr]
    exact writeHeader_status w.response hw.1
  have hc : GoMap.get? (printResponse env w status (e :: m) content).response.header
      (bs "Content-Type") = some (bs "image/gif") := by
    rw [hr]
    exact get?_set_self _ _ _
  have ht : (printResponse env w status (e :: m) content).response.sent = [] := by
    rw [hr]
    exact writeHeader_sent w.response hw.2.1 hw.2.2.1
  exact ⟨Or.inr hs, fun h => by rw [hs] at h; exact Option.noConfusion h, ht, fun _ => ⟨hs, hc⟩⟩

/-- Whatever the request body and the transport, `post` sends no header of its own
with the status: the header map is still empty at the first `WriteHeader`. -/
theorem enveloped_post (env : Env) (tr : Transport) (body : GoString) :
    Enveloped (post env tr body) :=
  post_induct env tr body Enveloped ⟨Or.inl rfl, fun _ => rfl, rfl, fun h => absurd rfl h⟩
    (fun _ _ hw => hw) (fun _ hw => hw)
    (fun w st hd ct hne hw => enveloped_printResponse env w st hd ct hne hw)

theorem doublings_le (tr : Transport) (i : Nat) : ∀ j, doublings tr i j ≤ j
  | 0 => Nat.le_refl _
  | j + 1 => by
    have := doublings_le tr i j
    rw [doublings]
    split <;> omega

theorem rangeValue_eq : bs "bytes=0-" ++ itoa FetchMaxSize = bs "bytes=0-1048576" := by decide

/-! ## More facts about the folding loop -/

theorem entriesBy_head (startsNew : GoString → Bool) :
    ∀ (frags : List GoString) (e : GoString) (es : List GoString),
      ∃ t rest, entriesBy startsNew frags (e :: es) = (e ++ t) :: rest
  | [], e, es => ⟨[], es, by simp [entriesBy]⟩
  | sc :: r, e, es => by
    rw [entriesBy]
    split
    · exact entriesBy_head startsNew r e (es ++ [sc])
    · cases es with
      | nil =>
        obtain ⟨t, rest, h⟩ := entriesBy_head startsNew r (e ++ bs ", " ++ sc) []
        exact ⟨bs ", " ++ sc ++ t, rest, by rw [appendToLast, h]; simp [List.append_assoc]⟩
      | cons b es => exact entriesBy_head startsNew r e (appendToLast (b :: es) sc)

theorem appendToLast_ne_nil (sc : GoString) (l : List GoString) : appendToLast l sc ≠ [] := by
  match l with
  | [] => simp [appendToLast]
  | [a] => simp [appendToLast]
  | a :: b :: r => simp [appendToLast]

theorem join_appendToLast (sc : GoString) (r : List GoString) :
    ∀ (es : List GoString), es ≠ [] →
      join (bs ", ") (appendToLast es sc ++ r) = join (bs ", ") (es ++ sc :: r)
  | [], h => absurd rfl h
  | [a], _ => by
    simp only [appendToLast, List.singleton_append]
    rw [join_append_cons]
    rfl
  | a :: b :: es, _ => by
    have ih := join_appendToLast sc r (b :: es) (by simp)
    simp only [appendToLast, List.cons_append]
    rw [join_cons _ a _ (by simp [appendToLast_ne_nil]), ih]
    simp [join]

/-- Joining the entries with `", "` is joining the fragments with `", "`. -/
theorem join_entriesBy (startsNew : GoString → Bool) :
    ∀ (frags es : List GoString),
      join (bs ", ") (entriesBy startsNew frags es) = join (bs ", ") (es ++ frags)
  | [], es => by simp [entriesBy]
  | sc :: r, es => by
    rw [entriesBy]
    split
    · rw [join_entriesBy startsNew r (es ++ [sc])]
      simp
    · rename_i h
      have hne : es ≠ [] := fun e => h (Or.inl e)
      rw [join_entriesBy startsNew r (appendToLast es sc), join_appendToLast sc r es hne]

theorem hasPrefix_append_right :
    ∀ (s p r : GoString), hasPrefix s p = true → hasPrefix (s ++ r) p = true
  | s, [], r, _ => hasPrefix_nil _
  | [], d :: p, r, h => by simp [hasPrefix] at h
  | c :: s, d :: p, r, h => by
    simp only [hasPrefix, Bool.and_eq_true, List.cons_append] at h ⊢
    exact ⟨h.1, hasPrefix_append_right s p r h.2⟩

theorem hasPrefix_length (s p : GoString) (h : hasPrefix s p = true) : p.length ≤ s.length := by
  have e := congrArg List.length (hasPrefix_eq_append s p h)
  simp only [List.length_append] at e
  omega

/-- The pieces of `x ++ sep ++ y` are the pieces of `x` followed by the pieces of
`y`, for a separator `a :: t` that does not overlap itself. -/
theorem splitGo_append (a : Byte) (t : GoString) (ha : a ∉ t) (y : GoString) :
    ∀ (n : Nat) (x acc : GoString), x.length ≤ n →
      splitGo (a :: t) 0 (x ++ (a :: t) ++ y) acc
        = splitGo (a :: t) 0 x acc ++ splitGo (a :: t) 0 y []
  | _, [], acc, _ => by
    have h := splitGo_append_sep a t ha y [] acc (by simp [contains, hasPrefix])
    simpa [splitGo] using h
  | 0, c :: x, acc, h => by simp at h
  | n + 1, c :: x, acc, h => by
    have hx : x.length ≤ n := by simpa using h
    by_cases hp : hasPrefix (c :: x) (a :: t) = true
    · have hp' : hasPrefix (c :: (x ++ (a :: t) ++ y)) (a :: t) = true := by
        have := hasPrefix_append_right (c :: x) (a :: t) ((a :: t) ++ y) hp
        simpa [List.append_assoc] using this
      have hl : t.length ≤ x.length := by
        have := hasPrefix_length _ _ hp
        simpa using this
      have hd : (x ++ (a :: t) ++ y).drop t.length = x.drop t.length ++ (a :: t) ++ y := by
        rw [List.append_assoc, List.drop_append_of_le_length hl, List.append_assoc]
      have ih := splitGo_append a t ha y n (x.drop t.length) [] (by simp; omega)
      have e1 : splitGo (a :: t) 0 (c :: (x ++ (a :: t) ++ y)) acc
          = acc :: splitGo (a :: t) 0 ((x ++ (a :: t) ++ y).drop t.length) [] := by
        rw [splitGo, if_pos hp', splitGo_skip]
        simp
      have e2 : splitGo (a :: t) 0 (c :: x) acc
          = acc :: splitGo (a :: t) 0 (x.drop t.length) [] := by
        rw [splitGo, if_pos hp, splitGo_skip]
        simp
      simp only [List.cons_append]
      rw [e1, e2, hd, ih]
      simp
    · have hp' : ¬ hasPrefix (c :: (x ++ (a :: t) ++ y)) (a :: t) = true := by
        intro hc
        simp only [hasPrefix, Bool.and_eq_true, List.append_assoc, List.cons_append] at hc
        have h2 := hasPrefix_of_append a (t ++ y) t x ha hc.2
        exact hp (by simp only [hasPrefix, Bool.and_eq_true]; exact ⟨hc.1, h2⟩)
      simp only [List.cons_append]
      rw [splitGo, if_neg hp', splitGo, if_neg hp]
      exact splitGo_append a t ha y n x (acc ++ [c]) hx

/-- The pieces of a joined list are the pieces of its members, in order. -/
theorem splitGo_join_pieces (a : Byte) (t : GoString) (ha : a ∉ t) :
    ∀ (es : List GoString), es ≠ [] →
      splitGo (a :: t) 0 (join (a :: t) es) []
        = (es.map (fun e => splitGo (a :: t) 0 e [])).flatten
  | [], h => absurd rfl h
  | [e], _ => by simp [join]
  | e :: e' :: r, _ => by
    have ih := splitGo_join_pieces a t ha (e' :: r) (by simp)
    rw [join, splitGo_append a t ha _ e.length e [] (Nat.le_refl _), ih]
    simp

theorem entriesBy_ne_nil (startsNew : GoString → Bool) :
    ∀ (frags es : List GoString), es ++ frags ≠ [] → entriesBy startsNew frags es ≠ []
  | [], es, h => by simpa [entriesBy] using h
  | sc :: r, es, _ => by
    rw [entriesBy]
    split
    · exact entriesBy_ne_nil startsNew r _ (by simp)
    · exact entriesBy_ne_nil startsNew r _ (by simp [appendToLast_ne_nil])

/-! ## The text of the notifications -/

/-- The 502 notification, byte for byte. -/
theorem notification_exhausted (method url m0 m1 m2 : GoString) :
    notification method url 502 (bs "Fetch Server Failed: " ++ fmtStrings [m0, m1, m2])
      = ⟨502, [(bs "Content-Type", bs "text/html")],
          bs "<h2>GAE/GO Fetch Server Info</h2><hr noshade='noshade'><p>" ++ method ++ bs " '"
            ++ url ++ bs "'</p><p>Return Code: 502</p><p>Message: Fetch Server Failed: ["
            ++ m0 ++ bs " " ++ m1 ++ bs " " ++ m2 ++ bs "]</p>"⟩ := by
  have e1 : itoa 502 = bs "502" := by decide
  have e2 : bs "'</p><p>Return Code: 502</p><p>Message: Fetch Server Failed: ["
      = bs "'</p><p>Return Code: " ++ (bs "502" ++ (bs "</p><p>Message: "
          ++ (bs "Fetch Server Failed: " ++ bs "["))) := by decide
  have e3 : bs "]</p>" = bs "]" ++ bs "</p>" := by decide
  rw [e2, e3]
  simp only [notification, notifyContent, fmtStrings, join, e1, List.append_assoc]

/-- The 501 notification of the scheme check, byte for byte. -/
theorem notification_scheme (method url : GoString) :
    notification method url 501 (bs "Unsupported Scheme")
      = ⟨501, [(bs "Content-Type", bs "text/html")],
          bs "<h2>GAE/GO Fetch Server Info</h2><hr noshade='noshade'><p>" ++ method ++ bs " '"
            ++ url ++ bs "'</p><p>Return Code: 501</p><p>Message: Unsupported Scheme</p>"⟩ := by
  have e1 : itoa 501 = bs "501" := by decide
  have e2 : bs "'</p><p>Return Code: 501</p><p>Message: Unsupported Scheme</p>"
      = bs "'</p><p>Return Code: " ++ (bs "501" ++ (bs "</p><p>Message: "
          ++ (bs "Unsupported Scheme" ++ bs "</p>"))) := by decide
  rw [e2]
  simp only [notification, notifyContent, e1, List.append_assoc]

theorem post_sent_headers (env : Env) (tr : Transport) (body : GoString) :
    (post env tr body).response.sent = [] :=
  (enveloped_post env tr body).2.2.1

/-! ## The claims -/

/-- C1, as amended: for every non-empty mapping with pairwise different keys, none of
which contains `&` or `=`, `encodeData` returns an encoding (whatever the order
in which the entries are visited) and `decodeData` of it is the mapping. -/
theorem codec_round_trip (m : GoMap) (hne : m ≠ []) (hnd : (m.map Prod.fst).Nodup)
    (hk : ∀ x ∈ m, contains x.1 (bs "&") = false ∧ contains x.1 (bs "=") = false) :
    ∃ qs, encodeData m = some qs ∧ decodeData qs = some m := by
  obtain ⟨e, r, rfl⟩ := List.exists_cons_of_ne_nil hne
  refine ⟨segment e ++ encodeBuf r, ?_, ?_⟩
  · simp [encodeData, encodeBuf_cons, bs_amp]
  · have h1 := splitGo_encodeBuf r e (fun x hx => (hk x hx).1)
    have h2 := decodeLoop_segments (e :: r) [] (fun x hx => (hk x hx).2) (by simpa using hnd)
    unfold decodeData split
    rw [if_neg (by decide), h1]
    simpa using h2

theorem codec_round_trip_witness :
    ([(bs "method", bs "GET"), (bs "url", bs "http://a/?x=1&y=2")] : GoMap) ≠ [] ∧
    ∃ qs, encodeData [(bs "method", bs "GET"), (bs "url", bs "http://a/?x=1&y=2")] = some qs ∧
      decodeData qs = some [(bs "method", bs "GET"), (bs "url", bs "http://a/?x=1&y=2")] :=
  ⟨by decide, codec_round_trip _ (by decide) (by decide) (by decide)⟩

/-- C1 fails as stated: `encodeData` panics on the empty mapping, and a key with
`=` in it does not come back (the value of the key `a=b` is lost, the key `a`
appears instead). -/
theorem codec_round_trip_counterexample :
    encodeData [] = none ∧
    encodeData [(bs "a=b", bs "x")] = some (bs "a=b=78") ∧
    decodeData (bs "a=b=78") = some [(bs "a", bs "")] ∧
    GoMap.get? [(bs "a", bs "")] (bs "a=b") ≠ GoMap.get? [(bs "a=b", bs "x")] (bs "a=b") := by
  decide

/-- C2 fails on the code: on the input `a=78&abc`, whose second segment has no `=`,
`decodeData` panics (`pair[1]` is out of range) and returns no mapping at all. -/
theorem decodeData_malformed_panics :
    split (bs "a=78&abc") (bs "&") = [bs "a=78", bs "abc"] ∧
    contains (bs "abc") (bs "=") = false ∧
    decodeData (bs "a=78&abc") = none := by
  decide

/-- C3: for a status in `0..2^32-1`, a header map whose encoding is `h` and a
content `c`, both shorter than `2^32` bytes, `printResponse` appends to the body
the discriminator and then `P = BE32(status) ++ BE32(len h) ++ BE32(len c) ++ h ++ c`,
raw after `'0'` and through the zlib writer after `'1'`; reading the frame with
an inflater that inverts the writer gives back `status`, `len h`, `len c`, `h`
and `c`. -/
theorem framing_round_trip (env : Env) (inflate : GoString → Option GoString)
    (hz : ∀ x, inflate (env.deflate x) = some x) (hw : env.newWriterOk = true)
    (w : World) (status : Int) (header : GoMap) (h c : GoString)
    (hs : 0 ≤ status ∧ status < 4294967296) (hh : encodeData header = some h)
    (hhl : h.length < 4294967296) (hcl : c.length < 4294967296) :
    ∃ frame,
      (printResponse env w status header c).response.body = w.response.body ++ frame ∧
      frame = (if isTextual header then
          bs "1" ++ env.deflate (be32 status.toNat ++ be32 h.length ++ be32 c.length ++ h ++ c)
        else bs "0" ++ (be32 status.toNat ++ be32 h.length ++ be32 c.length ++ h ++ c)) ∧
      parseFrame inflate frame = some (status.toNat, h.length, c.length, h, c) := by
  have e1 : uint32 status = status.toNat := by
    unfold uint32
    rw [Int.emod_eq_of_lt hs.1 hs.2]
  have e2 : uint32 (h.length : Int) = h.length := by
    unfold uint32
    rw [Int.emod_eq_of_lt (by omega) (by omega)]
    simp
  have e3 : uint32 (c.length : Int) = c.length := by
    unfold uint32
    rw [Int.emod_eq_of_lt (by omega) (by omega)]
    simp
  have hp := parsePayload_framePayload status.toNat h.length c.length h c (by omega) hhl hcl
    rfl rfl
  refine ⟨_, ?_, rfl, ?_⟩
  · simp only [printResponse, hh, hw, framePayload, e1, e2, e3, if_true]
    split <;> simp [write_body, setHeader_body, writeHeader_body, List.append_assoc]
  · split
    · have hb : bs "1" = [49] := by decide
      rw [hb]
      simp only [List.singleton_append, parseFrame, if_true, hz, hp]
    · have hb : bs "0" = [48] := by decide
      rw [hb]
      simp only [List.singleton_append, parseFrame]
      rw [if_neg (by decide), if_pos trivial, hp]

theorem framing_round_trip_witness :
    encodeData [(bs "Content-Type", bs "text/html")] = some (bs "Content-Type=746578742f68746d6c") ∧
    ∃ frame,
      (printResponse plainEnv World.init 200 [(bs "Content-Type", bs "text/html")]
        (bs "hi")).response.body = World.init.response.body ++ frame ∧
      frame = (if isTextual [(bs "Content-Type", bs "text/html")] then
          bs "1" ++ plainEnv.deflate (be32 (200 : Int).toNat
            ++ be32 (bs "Content-Type=746578742f68746d6c").length ++ be32 (bs "hi").length
            ++ bs "Content-Type=746578742f68746d6c" ++ bs "hi")
        else bs "0" ++ (be32 (200 : Int).toNat
            ++ be32 (bs "Content-Type=746578742f68746d6c").length ++ be32 (bs "hi").length
            ++ bs "Content-Type=746578742f68746d6c" ++ bs "hi")) ∧
      parseFrame some frame = some ((200 : Int).toNat,
        (bs "Content-Type=746578742f68746d6c").length, (bs "hi").length,
        bs "Content-Type=746578742f68746d6c", bs "hi") :=
  ⟨by decide, framing_round_trip plainEnv some (fun _ => rfl) rfl World.init 200
    [(bs "Content-Type", bs "text/html")] (bs "Content-Type=746578742f68746d6c") (bs "hi")
    (by decide) (by decide) (by decide) (by decide)⟩

/-- C4 fails on the code: for the request `method=GET`, `url=ftp://x` and a
transport that answers the first round trip with status 200, the handler calls
`printResponse` twice, for the 501 notification of the scheme check and then for
the response, because the scheme check does not return. -/
theorem post_two_outcomes :
    decodeData (bs "method=474554&url=6674703a2f2f78")
      = some [(bs "method", bs "GET"), (bs "url", bs "ftp://x")] ∧
    (post plainEnv (fun _ => RoundTrip.success ⟨200, [], bs "ok", false⟩)
        (bs "method=474554&url=6674703a2f2f78")).calls
      = [notification (bs "GET") (bs "ftp://x") 501 (bs "Unsupported Scheme"),
          ⟨200, [(bs "Connection", bs "close")], bs "ok"⟩] ∧
    (post plainEnv (fun _ => RoundTrip.success ⟨200, [], bs "ok", false⟩)
        (bs "method=474554&url=6674703a2f2f78")).panicked = false := by
  decide

/-- C5, as amended: the folding loop never panics, and its result is the entries
of the rule "the first fragment, and every fragment that does not match
`^[^ =]+ `, starts a new cookie entry; a later fragment that matches is
appended to the previous entry with `", "`", joined by `"\r\nSet-Cookie: "`. -/
theorem cookie_folding_rule (v : GoString) :
    foldCookies v = some (join (bs "\r\nSet-Cookie: ")
      (entriesBy (fun sc => !regexMatch sc) (split v (bs ", ")) [])) := by
  simp [foldCookies, foldedCookies_eq]

/-- C5 fails as stated: on `id=1; Path=/, sess=2; Path=/` the second fragment does
not match the pattern, so the rule of the claim keeps one entry, while the code
starts a second one. -/
theorem cookie_folding_rule_counterexample :
    regexMatch (bs "sess=2; Path=/") = false ∧
    specFoldCookies (bs "id=1; Path=/, sess=2; Path=/") = bs "id=1; Path=/, sess=2; Path=/" ∧
    foldCookies (bs "id=1; Path=/, sess=2; Path=/")
      = some (bs "id=1; Path=/\r\nSet-Cookie: sess=2; Path=/") ∧
    foldCookies (bs "id=1; Path=/, sess=2; Path=/")
      ≠ some (specFoldCookies (bs "id=1; Path=/, sess=2; Path=/")) := by
  decide

/-- C6: for fragments `f1..fn`, `n ≥ 1`, none of which contains `", "` and none of
`f2..fn` matching `^[^ =]+ `, folding `f1 ", " f2 ", " ... fn` gives
`f1 "\r\nSet-Cookie: " f2 ... "\r\nSet-Cookie: " fn`. -/
theorem independent_cookies_separated (fs : List GoString) (hne : fs ≠ [])
    (hc : ∀ f ∈ fs, contains f (bs ", ") = false)
    (hm : ∀ f ∈ fs.tail, regexMatch f = false) :
    foldCookies (join (bs ", ") fs) = some (join (bs "\r\nSet-Cookie: ") fs) := by
  have h1 : split (join (bs ", ") fs) (bs ", ") = fs := by
    unfold split
    rw [if_neg (by decide)]
    rw [bs_comma_space] at hc ⊢
    exact splitGo_join 44 [32] (by decide) fs hne hc
  obtain ⟨f, r, rfl⟩ := List.exists_cons_of_ne_nil hne
  have h2 : entriesBy (fun sc => !regexMatch sc) (f :: r) [] = f :: r := by
    rw [entriesBy, if_pos (Or.inl rfl),
      entriesBy_all_new _ r _ (fun x hx => by simp [hm x (by simpa using hx)])]
    simp
  simp [foldCookies, foldedCookies_eq, h1, h2]

theorem independent_cookies_separated_witness :
    foldCookies (join (bs ", ") [bs "id=1; Path=/", bs "sess=2; Path=/"])
        = some (join (bs "\r\nSet-Cookie: ") [bs "id=1; Path=/", bs "sess=2; Path=/"]) ∧
    join (bs ", ") [bs "id=1; Path=/", bs "sess=2; Path=/"] = bs "id=1; Path=/, sess=2; Path=/" ∧
    join (bs "\r\nSet-Cookie: ") [bs "id=1; Path=/", bs "sess=2; Path=/"]
      = bs "id=1; Path=/\r\nSet-Cookie: sess=2; Path=/" :=
  ⟨independent_cookies_separated [bs "id=1; Path=/", bs "sess=2; Path=/"] (by decide)
    (by decide) (by decide), by decide, by decide⟩

/-- C7: for a `Set-Cookie` value in which every `", "`-separated fragment after the
first matches `^[^ =]+ `, the folded value is the value itself. -/
theorem dated_cookie_folds_to_itself (v : GoString)
    (hm : ∀ f ∈ (split v (bs ", ")).tail, regexMatch f = true) :
    foldCookies v = some v := by
  have hj : join (bs ", ") (split v (bs ", ")) = v := by
    unfold split
    rw [if_neg (by decide)]
    simpa using join_splitGo (bs ", ") (by decide) v.length v [] (Nat.le_refl _)
  have hne : split v (bs ", ") ≠ [] := by
    unfold split
    rw [if_neg (by decide)]
    exact splitGo_ne_nil _ _ _ _
  obtain ⟨f, r, hfr⟩ := List.exists_cons_of_ne_nil hne
  rw [hfr] at hm hj
  have h2 : entriesBy (fun sc => !regexMatch sc) (f :: r) [] = [join (bs ", ") (f :: r)] := by
    rw [entriesBy, if_pos (Or.inl rfl)]
    exact entriesBy_all_continue _ r f (fun x hx => by simp [hm x (by simpa using hx)])
  simp [foldCookies, foldedCookies_eq, hfr, h2, hj, join]

theorem dated_cookie_folds_to_itself_witness :
    (∀ f ∈ (split (bs "a=1 expires, 01 Jan 2030; b=2") (bs ", ")).tail, regexMatch f = true) ∧
    foldCookies (bs "a=1 expires, 01 Jan 2030; b=2") = some (bs "a=1 expires, 01 Jan 2030; b=2") :=
  ⟨by decide, dated_cookie_folds_to_itself _ (by decide)⟩

/-- C8: when the first two round trips fail with a message containing
`DEADLINE_EXCEEDED` and the third succeeds, the retry loop makes exactly three
round trips, with deadlines 30, 60 and 120 in that order, and calls
`printResponse` once, with the status and the body of the third result and the
header map built from it. -/
theorem retry_with_backoff (env : Env) (tr : Transport) (method url : GoString) (req : Request)
    (w : World) (m0 m1 : GoString) (resp : Response)
    (h0 : tr 0 = RoundTrip.failure m0) (d0 : contains m0 (bs "DEADLINE_EXCEEDED") = true)
    (h1 : tr 1 = RoundTrip.failure m1) (d1 : contains m1 (bs "DEADLINE_EXCEEDED") = true)
    (h2 : tr 2 = RoundTrip.success resp) :
    ∃ header, responseHeader env resp = some header ∧
      (fetchLoop env tr method url FetchMax 0 (some req) Deadline [] w).attempts
        = w.attempts ++ [{ deadline := 30, header := req.header },
            { deadline := 60, header := req.header }, { deadline := 120, header := req.header }] ∧
      (fetchLoop env tr method url FetchMax 0 (some req) Deadline [] w).calls
        = w.calls ++ [{ status := resp.status, header := header, content := resp.content }] ∧
      (fetchLoop env tr method url FetchMax 0 (some req) Deadline [] w).panicked = w.panicked := by
  obtain ⟨header, hh, hne⟩ := responseHeader_isSome env resp
  refine ⟨header, hh, ?_⟩
  have e : fetchLoop env tr method url FetchMax 0 (some req) Deadline [] w
      = printResponse env
          { w with attempts := w.attempts ++ [{ deadline := 30, header := req.header },
              { deadline := 60, header := req.header },
              { deadline := 120, header := req.header }] }
          resp.status header resp.content := by
    simp only [FetchMax, Deadline, fetchLoop, h0, d0, h1, d1, h2, hh, if_true, Nat.zero_add,
      Nat.reduceAdd, Nat.reduceMul, List.append_assoc]
    rfl
  rw [e]
  have h := printResponse_record env
    { w with attempts := w.attempts ++ [{ deadline := 30, header := req.header },
        { deadline := 60, header := req.header }, { deadline := 120, header := req.header }] }
    resp.status header resp.content hne
  exact ⟨h.2.1, h.1, h.2.2⟩

theorem retry_with_backoff_witness :
    ∃ header, responseHeader plainEnv ⟨200, [(bs "Content-Type", bs "image/png")], bs "ok", false⟩
        = some header ∧
      (fetchLoop plainEnv
        (fun i => if i < 2 then RoundTrip.failure (bs "DEADLINE_EXCEEDED")
          else RoundTrip.success ⟨200, [(bs "Content-Type", bs "image/png")], bs "ok", false⟩)
        (bs "GET") (bs "http://x") FetchMax 0 (some ⟨bs "GET", bs "http://x", [], []⟩) Deadline []
        World.init).attempts
        = World.init.attempts ++ [{ deadline := 30, header := [] },
            { deadline := 60, header := [] }, { deadline := 120, header := [] }] ∧
      (fetchLoop plainEnv
        (fun i => if i < 2 then RoundTrip.failure (bs "DEADLINE_EXCEEDED")
          else RoundTrip.success ⟨200, [(bs "Content-Type", bs "image/png")], bs "ok", false⟩)
        (bs "GET") (bs "http://x") FetchMax 0 (some ⟨bs "GET", bs "http://x", [], []⟩) Deadline []
        World.init).calls
        = World.init.calls ++ [{ status := 200, header := header, content := bs "ok" }] ∧
      (fetchLoop plainEnv
        (fun i => if i < 2 then RoundTrip.failure (bs "DEADLINE_EXCEEDED")
          else RoundTrip.success ⟨200, [(bs "Content-Type", bs "image/png")], bs "ok", false⟩)
        (bs "GET") (bs "http://x") FetchMax 0 (some ⟨bs "GET", bs "http://x", [], []⟩) Deadline []
        World.init).panicked = World.init.panicked :=
  retry_with_backoff plainEnv _ (bs "GET") (bs "http://x") ⟨bs "GET", bs "http://x", [], []⟩
    World.init (bs "DEADLINE_EXCEEDED") (bs "DEADLINE_EXCEEDED")
    ⟨200, [(bs "Content-Type", bs "image/png")], bs "ok", false⟩ rfl (by decide) rfl (by decide) rfl

/-- C9: when the first round trip fails with a message that contains `INVALID_URL`
and neither `DEADLINE_EXCEEDED` nor `FETCH_ERROR`, the retry loop makes exactly
one round trip and calls `printResponse` once, for the notification with inner
status 501 and message `Invalid URL: ` followed by the error message. -/
theorem invalid_url_terminal (env : Env) (tr : Transport) (method url : GoString) (req : Request)
    (w : World) (m : GoString) (h0 : tr 0 = RoundTrip.failure m)
    (hd : contains m (bs "DEADLINE_EXCEEDED") = false) (hf : contains m (bs "FETCH_ERROR") = false)
    (hi : contains m (bs "INVALID_URL") = true) :
    (fetchLoop env tr method url FetchMax 0 (some req) Deadline [] w).attempts
      = w.attempts ++ [{ deadline := 30, header := req.header }] ∧
    (fetchLoop env tr method url FetchMax 0 (some req) Deadline [] w).calls
      = w.calls ++ [notification method url 501 (bs "Invalid URL: " ++ m)] ∧
    (fetchLoop env tr method url FetchMax 0 (some req) Deadline [] w).panicked = w.panicked := by
  have e : fetchLoop env tr method url FetchMax 0 (some req) Deadline [] w
      = printNotify env
          { w with attempts := w.attempts ++ [{ deadline := 30, header := req.header }] }
          method url 501 (bs "Invalid URL: " ++ m) := by
    simp [FetchMax, Deadline, fetchLoop, h0, hd, hf, hi]
  rw [e]
  have h := printNotify_record env
    { w with attempts := w.attempts ++ [{ deadline := 30, header := req.header }] }
    method url 501 (bs "Invalid URL: " ++ m)
  exact ⟨h.2.1, h.1, h.2.2⟩

theorem invalid_url_terminal_witness :
    contains (bs "API error 1 (urlfetch: INVALID_URL)") (bs "INVALID_URL") = true ∧
    (fetchLoop plainEnv (fun _ => RoundTrip.failure (bs "API error 1 (urlfetch: INVALID_URL)"))
        (bs "GET") (bs "http://x") FetchMax 0 (some ⟨bs "GET", bs "http://x", [], []⟩) Deadline []
        World.init).attempts
      = World.init.attempts ++ [{ deadline := 30, header := [] }] ∧
    (fetchLoop plainEnv (fun _ => RoundTrip.failure (bs "API error 1 (urlfetch: INVALID_URL)"))
        (bs "GET") (bs "http://x") FetchMax 0 (some ⟨bs "GET", bs "http://x", [], []⟩) Deadline []
        World.init).calls
      = World.init.calls ++ [notification (bs "GET") (bs "http://x") 501
          (bs "Invalid URL: " ++ bs "API error 1 (urlfetch: INVALID_URL)")] ∧
    (fetchLoop plainEnv (fun _ => RoundTrip.failure (bs "API error 1 (urlfetch: INVALID_URL)"))
        (bs "GET") (bs "http://x") FetchMax 0 (some ⟨bs "GET", bs "http://x", [], []⟩) Deadline []
        World.init).panicked = World.init.panicked :=
  ⟨by decide, invalid_url_terminal plainEnv _ (bs "GET") (bs "http://x")
    ⟨bs "GET", bs "http://x", [], []⟩ World.init (bs "API error 1 (urlfetch: INVALID_URL)") rfl
    (by decide) (by decide) (by decide)⟩

/-- C10: when the three round trips all fail and none of the messages is classified
as an invalid URL (each contains `DEADLINE_EXCEEDED` or `FETCH_ERROR`, or does
not contain `INVALID_URL`), the loop makes exactly three round trips, the first
with deadline 30, and then calls `printResponse` once, for the notification with
inner status 502 and message `Fetch Server Failed: ` followed by the three
messages in attempt order, as `%v` prints them: in brackets, with a space
between them.  The content of the notification is given byte for byte. -/
theorem exhausted_retries (env : Env) (tr : Transport) (method url : GoString) (req : Request)
    (w : World) (m0 m1 m2 : GoString)
    (h0 : tr 0 = RoundTrip.failure m0) (h1 : tr 1 = RoundTrip.failure m1)
    (h2 : tr 2 = RoundTrip.failure m2)
    (r0 : contains m0 (bs "DEADLINE_EXCEEDED") = true ∨ contains m0 (bs "FETCH_ERROR") = true ∨
      contains m0 (bs "INVALID_URL") = false)
    (r1 : contains m1 (bs "DEADLINE_EXCEEDED") = true ∨ contains m1 (bs "FETCH_ERROR") = true ∨
      contains m1 (bs "INVALID_URL") = false)
    (r2 : contains m2 (bs "DEADLINE_EXCEEDED") = true ∨ contains m2 (bs "FETCH_ERROR") = true ∨
      contains m2 (bs "INVALID_URL") = false) :
    (∃ a1 a2, (fetchLoop env tr method url FetchMax 0 (some req) Deadline [] w).attempts
      = w.attempts ++ [{ deadline := 30, header := req.header }, a1, a2]) ∧
    (fetchLoop env tr method url FetchMax 0 (some req) Deadline [] w).calls
      = w.calls ++ [⟨502, [(bs "Content-Type", bs "text/html")],
          bs "<h2>GAE/GO Fetch Server Info</h2><hr noshade='noshade'><p>" ++ method ++ bs " '"
            ++ url ++ bs "'</p><p>Return Code: 502</p><p>Message: Fetch Server Failed: ["
            ++ m0 ++ bs " " ++ m1 ++ bs " " ++ m2 ++ bs "]</p>"⟩] ∧
    (fetchLoop env tr method url FetchMax 0 (some req) Deadline [] w).panicked = w.panicked := by
  obtain ⟨q1, t1, e1⟩ := fetchLoop_retry env tr method url 2 0 req Deadline [] w m0 h0 r0
  obtain ⟨q2, t2, e2⟩ := fetchLoop_retry env tr method url 1 1 q1 t1 ([] ++ [m0])
    { w with attempts := w.attempts ++ [{ deadline := Deadline, header := req.header }] } m1 h1 r1
  obtain ⟨q3, t3, e3⟩ := fetchLoop_retry env tr method url 0 2 q2 t2 ([] ++ [m0] ++ [m1]) _ m2 h2 r2
  have e : fetchLoop env tr method url FetchMax 0 (some req) Deadline [] w
      = printNotify env
          { w with attempts := w.attempts ++ [{ deadline := 30, header := req.header },
              { deadline := t1, header := q1.header }, { deadline := t2, header := q2.header }] }
          method url 502 (bs "Fetch Server Failed: " ++ fmtStrings [m0, m1, m2]) := by
    show fetchLoop env tr method url (2 + 1) 0 (some req) Deadline [] w = _
    rw [e1, e2, e3, fetchLoop]
    simp [Deadline]
  rw [e]
  have h := printNotify_record env
    { w with attempts := w.attempts ++ [{ deadline := 30, header := req.header },
        { deadline := t1, header := q1.header }, { deadline := t2, header := q2.header }] }
    method url 502 (bs "Fetch Server Failed: " ++ fmtStrings [m0, m1, m2])
  rw [notification_exhausted] at h
  exact ⟨⟨_, _, h.2.1⟩, h.1, h.2.2⟩

set_option maxRecDepth 20000 in
theorem exhausted_retries_witness :
    (∃ a1 a2, (fetchLoop plainEnv
        (fun i => if i = 1 then RoundTrip.failure (bs "RESPONSE_TOO_LARGE")
          else RoundTrip.failure (bs "FETCH_ERROR"))
        (bs "GET") (bs "http://x") FetchMax 0 (some ⟨bs "GET", bs "http://x", [], []⟩) Deadline []
        World.init).attempts
      = World.init.attempts ++ [{ deadline := 30, header := [] }, a1, a2]) ∧
    (fetchLoop plainEnv
        (fun i => if i = 1 then RoundTrip.failure (bs "RESPONSE_TOO_LARGE")
          else RoundTrip.failure (bs "FETCH_ERROR"))
        (bs "GET") (bs "http://x") FetchMax 0 (some ⟨bs "GET", bs "http://x", [], []⟩) Deadline []
        World.init).calls
      = World.init.calls ++ [⟨502, [(bs "Content-Type", bs "text/html")],
          bs "<h2>GAE/GO Fetch Server Info</h2><hr noshade='noshade'><p>" ++ bs "GET" ++ bs " '"
            ++ bs "http://x"
            ++ bs "'</p><p>Return Code: 502</p><p>Message: Fetch Server Failed: ["
            ++ bs "FETCH_ERROR" ++ bs " " ++ bs "RESPONSE_TOO_LARGE" ++ bs " " ++ bs "FETCH_ERROR"
            ++ bs "]</p>"⟩] ∧
    (fetchLoop plainEnv
        (fun i => if i = 1 then RoundTrip.failure (bs "RESPONSE_TOO_LARGE")
          else RoundTrip.failure (bs "FETCH_ERROR"))
        (bs "GET") (bs "http://x") FetchMax 0 (some ⟨bs "GET", bs "http://x", [], []⟩) Deadline []
        World.init).panicked = World.init.panicked ∧
    (fetchLoop plainEnv
        (fun i => if i = 1 then RoundTrip.failure (bs "RESPONSE_TOO_LARGE")
          else RoundTrip.failure (bs "FETCH_ERROR"))
        (bs "GET") (bs "http://x") FetchMax 0 (some ⟨bs "GET", bs "http://x", [], []⟩) Deadline []
        World.init).calls.map Outcome.content
      = [bs ("<h2>GAE/GO Fetch Server Info</h2><hr noshade='noshade'><p>GET 'http://x'</p>" ++
          "<p>Return Code: 502</p><p>Message: Fetch Server Failed: " ++
          "[FETCH_ERROR RESPONSE_TOO_LARGE FETCH_ERROR]</p>")] :=
  ⟨(exhausted_retries plainEnv _ (bs "GET") (bs "http://x") ⟨bs "GET", bs "http://x", [], []⟩
    World.init (bs "FETCH_ERROR") (bs "RESPONSE_TOO_LARGE") (bs "FETCH_ERROR") rfl rfl rfl
    (by decide) (by decide) (by decide)).1,
   (exhausted_retries plainEnv _ (bs "GET") (bs "http://x") ⟨bs "GET", bs "http://x", [], []⟩
    World.init (bs "FETCH_ERROR") (bs "RESPONSE_TOO_LARGE") (bs "FETCH_ERROR") rfl rfl rfl
    (by decide) (by decide) (by decide)).2.1,
   (exhausted_retries plainEnv _ (bs "GET") (bs "http://x") ⟨bs "GET", bs "http://x", [], []⟩
    World.init (bs "FETCH_ERROR") (bs "RESPONSE_TOO_LARGE") (bs "FETCH_ERROR") rfl rfl rfl
    (by decide) (by decide) (by decide)).2.2, by decide⟩

/-- C11: at a successful round trip the loop calls `printResponse` with the status
and body of the response and a header map in which, when the status is 206,
`Accept-Ranges` is `bytes` and `Content-Length` is the decimal length of the body
read, whatever the upstream supplied; for any other status these two headers are
as the upstream supplied them (its first value, or absent), `strings.ToLower` of
their names not being `set-cookie`. -/
theorem partial_content_headers (env : Env) (tr : Transport) (method url : GoString) (n i : Nat)
    (req : Request) (d : Nat) (errors : List GoString) (w : World) (resp : Response)
    (h : tr i = RoundTrip.success resp) :
    ∃ header,
      (fetchLoop env tr method url (n + 1) i (some req) d errors w).calls
        = w.calls ++ [⟨resp.status, header, resp.content⟩] ∧
      (resp.status = 206 →
        GoMap.get? header (bs "Accept-Ranges") = some (bs "bytes") ∧
        GoMap.get? header (bs "Content-Length") = some (itoa resp.content.length)) ∧
      (resp.status ≠ 206 → (resp.header.map Prod.fst).Nodup →
        env.toLower (bs "Accept-Ranges") ≠ bs "set-cookie" →
        env.toLower (bs "Content-Length") ≠ bs "set-cookie" →
        GoMap.get? header (bs "Accept-Ranges") = GoMap.get? resp.header (bs "Accept-Ranges") ∧
        GoMap.get? header (bs "Content-Length") = GoMap.get? resp.header (bs "Content-Length")) := by
  obtain ⟨header, hh, hne⟩ := responseHeader_isSome env resp
  refine ⟨header, ?_, ?_, ?_⟩
  · rw [fetchLoop_success env tr method url n i req d errors w resp header h hh]
    exact (printResponse_record env _ _ _ _ hne).1
  · intro hs
    obtain ⟨c, hc⟩ := copyHeaders_isSome env resp.header []
    simp only [responseHeader, hc, hs, if_true, Option.some.injEq] at hh
    subst hh
    constructor
    · rw [get?_set_ne _ _ _ _ (by decide), get?_set_ne _ _ _ _ (by decide), get?_set_self]
    · rw [get?_set_ne _ _ _ _ (by decide), get?_set_self]
  · intro hs hn h1 h2
    obtain ⟨c, hc⟩ := copyHeaders_isSome env resp.header []
    simp only [responseHeader, hc, hs, if_false, Option.some.injEq] at hh
    subst hh
    have e1 := copyHeaders_get? env (bs "Accept-Ranges") h1 (by decide) resp.header [] c hn hc
    have e2 := copyHeaders_get? env (bs "Content-Length") h2 (by decide) resp.header [] c hn hc
    rw [get?_set_ne _ _ _ _ (by decide), get?_set_ne _ _ _ _ (by decide), e1, e2]
    constructor
    · cases GoMap.get? resp.header (bs "Accept-Ranges") <;> rfl
    · cases GoMap.get? resp.header (bs "Content-Length") <;> rfl

theorem partial_content_headers_witness :
    (∃ header,
      (fetchLoop plainEnv tooLargeThen206 (bs "GET") (bs "http://x") (1 + 1) 1 (some sampleRequest)
          60 [bs "RESPONSE_TOO_LARGE"] World.init).calls
        = World.init.calls ++ [⟨206, header, bs "hello"⟩] ∧
      GoMap.get? header (bs "Accept-Ranges") = some (bs "bytes") ∧
      GoMap.get? header (bs "Content-Length") = some (bs "5")) ∧
    (∃ header,
      (fetchLoop plainEnv
          (fun _ => RoundTrip.success ⟨200, [(bs "Content-Length", bs "2")], bs "ok", false⟩)
          (bs "GET") (bs "http://x") (2 + 1) 0 (some sampleRequest) 30 [] World.init).calls
        = World.init.calls ++ [⟨200, header, bs "ok"⟩] ∧
      GoMap.get? header (bs "Accept-Ranges") = none ∧
      GoMap.get? header (bs "Content-Length") = some (bs "2")) :=
  ⟨(partial_content_headers plainEnv tooLargeThen206 (bs "GET") (bs "http://x") 1 1
      sampleRequest 60 [bs "RESPONSE_TOO_LARGE"] World.init
      ⟨206, [(bs "Content-Length", bs "9999999")], bs "hello", false⟩ rfl).elim
    (fun header hh => ⟨header, hh.1, hh.2.1 rfl⟩),
   (partial_content_headers plainEnv
      (fun _ => RoundTrip.success ⟨200, [(bs "Content-Length", bs "2")], bs "ok", false⟩)
      (bs "GET") (bs "http://x") 2 0 sampleRequest 30 [] World.init
      ⟨200, [(bs "Content-Length", bs "2")], bs "ok", false⟩ rfl).elim
    (fun header hh => ⟨header, hh.1,
      hh.2.2 (by decide) (by decide) (by decide) (by decide)⟩)⟩

/-- C12: whatever the request body and the transport, one call of `post` makes at
most `FetchMax = 3` round trips, recorded one after another, and none after a
round trip that succeeded or failed with an invalid URL: when the result of
round trip `k` (counted from 0) is one of these, at most `k + 1` are made. -/
theorem bounded_attempts (env : Env) (tr : Transport) (body : GoString) :
    (post env tr body).attempts.length ≤ FetchMax ∧ FetchMax = 3 ∧
    ∀ k, (tr k).terminal = true → (post env tr body).attempts.length ≤ k + 1 := by
  have key : ∃ L : List Attempt, (post env tr body).attempts = L ∧ L.length ≤ FetchMax ∧
      ∀ k, (tr k).terminal = true → L.length ≤ k + 1 := by
    unfold post
    split
    · exact ⟨[], rfl, by simp, fun _ _ => by simp⟩
    · split
      · exact ⟨[], rfl, by simp, fun _ _ => by simp⟩
      · split
        · exact ⟨[], rfl, by simp, fun _ _ => by simp⟩
        · rename_i request _
          rw [handle_eq env tr request World.init rfl]
          have hpre : (prelude env request World.init).attempts = [] :=
            prelude_induct env request (fun w => w.attempts = [])
              (fun w st hd ct _ hw => (printResponse_attempts env w st hd ct).trans hw)
              World.init rfl
          split
          · exact ⟨[], hpre, by simp, fun _ _ => by simp⟩
          · rename_i r _
            cases r with
            | none =>
              refine ⟨[], ?_, by simp, fun _ _ => by simp⟩
              simp only [FetchMax, fetchLoop]
              exact hpre
            | some req =>
              obtain ⟨L, h1, h2, h3, _⟩ := fetchLoop_trace env tr
                (GoMap.get request (bs "method")) (GoMap.get request (bs "url")) FetchMax 0 req
                Deadline [] (prelude env request World.init)
              refine ⟨L, ?_, h2, fun k hk => h3 k (by simpa using hk)⟩
              rw [h1, hpre, List.nil_append]
  obtain ⟨L, h1, h2, h3⟩ := key
  rw [h1]
  exact ⟨h2, rfl, h3⟩

/-- The scheme check writes first: when the `url` does not begin with `http`, the
calls of `printResponse` start with the 501 notification. -/
theorem scheme_notified_first (env : Env) (tr : Transport) (body r data : GoString)
    (request : GoMap) (h1 : env.newReader body = some r) (h2 : env.readAll r = some data)
    (h3 : decodeData data = some request)
    (hs : hasPrefix (GoMap.get request (bs "url")) (bs "http") = false) :
    ∃ rest, (post env tr body).calls
      = notification (GoMap.get request (bs "method")) (GoMap.get request (bs "url")) 501
          (bs "Unsupported Scheme") :: rest := by
  have hprint : ∀ (w : World) (status : Int) (header : GoMap) (content : GoString),
      (∃ rest, w.calls = notification (GoMap.get request (bs "method"))
        (GoMap.get request (bs "url")) 501 (bs "Unsupported Scheme") :: rest) →
      ∃ rest, (printResponse env w status header content).calls
        = notification (GoMap.get request (bs "method")) (GoMap.get request (bs "url")) 501
            (bs "Unsupported Scheme") :: rest := by
    intro w status header content ⟨rest, hw⟩
    exact ⟨rest ++ [⟨status, header, content⟩], by rw [printResponse_calls, hw]; rfl⟩
  have hpre : ∃ rest, (prelude env request World.init).calls
      = notification (GoMap.get request (bs "method")) (GoMap.get request (bs "url")) 501
          (bs "Unsupported Scheme") :: rest := by
    unfold prelude
    simp only [hs, Bool.false_eq_true, if_false]
    split
    · exact ⟨[], by rw [printNotify, printResponse_calls]; rfl⟩
    · exact hprint _ _ _ _ ⟨[], by rw [printNotify, printResponse_calls]; rfl⟩
  simp only [post, h1, h2, h3]
  rw [handle_eq env tr request World.init rfl]
  split
  · exact hpre
  · exact fetchLoop_induct env tr _ _
      (fun w => ∃ rest, w.calls = notification (GoMap.get request (bs "method"))
        (GoMap.get request (bs "url")) 501 (bs "Unsupported Scheme") :: rest)
      (fun w _ hw => hw) (fun w hw => hw) (fun w st hd ct _ hw => hprint w st hd ct hw)
      _ _ _ _ _ _ hpre

/-- C13: when the request body is read and decoded and the `url` of the request
does not begin with `http`, the first call of `printResponse` that `post` makes
is the notification with inner status 501, header `Content-Type: text/html` and
a content, given byte for byte, that names the method and url, the return code
501 and the message `Unsupported Scheme`. -/
theorem unsupported_scheme (env : Env) (tr : Transport) (body r data : GoString)
    (request : GoMap) (h1 : env.newReader body = some r) (h2 : env.readAll r = some data)
    (h3 : decodeData data = some request)
    (hs : hasPrefix (GoMap.get request (bs "url")) (bs "http") = false) :
    ∃ rest, (post env tr body).calls
      = ⟨501, [(bs "Content-Type", bs "text/html")],
          bs "<h2>GAE/GO Fetch Server Info</h2><hr noshade='noshade'><p>"
            ++ GoMap.get request (bs "method") ++ bs " '" ++ GoMap.get request (bs "url")
            ++ bs "'</p><p>Return Code: 501</p><p>Message: Unsupported Scheme</p>"⟩ :: rest := by
  obtain ⟨rest, h⟩ := scheme_notified_first env tr body r data request h1 h2 h3 hs
  rw [notification_scheme] at h
  exact ⟨rest, h⟩

set_option maxRecDepth 20000 in
theorem unsupported_scheme_witness :
    hasPrefix (GoMap.get [(bs "method", bs "GET"), (bs "url", bs "ftp://x")] (bs "url")) (bs "http")
      = false ∧
    (∃ rest, (post plainEnv answers200 (bs "method=474554&url=6674703a2f2f78")).calls
      = ⟨501, [(bs "Content-Type", bs "text/html")],
          bs "<h2>GAE/GO Fetch Server Info</h2><hr noshade='noshade'><p>"
            ++ GoMap.get [(bs "method", bs "GET"), (bs "url", bs "ftp://x")] (bs "method")
            ++ bs " '" ++ GoMap.get [(bs "method", bs "GET"), (bs "url", bs "ftp://x")] (bs "url")
            ++ bs "'</p><p>Return Code: 501</p><p>Message: Unsupported Scheme</p>"⟩ :: rest) ∧
    ((post plainEnv answers200 (bs "method=474554&url=6674703a2f2f78")).calls.head?.map
        Outcome.content
      = some (bs ("<h2>GAE/GO Fetch Server Info</h2><hr noshade='noshade'><p>GET 'ftp://x'</p>" ++
          "<p>Return Code: 501</p><p>Message: Unsupported Scheme</p>"))) :=
  ⟨by decide, unsupported_scheme plainEnv answers200 (bs "method=474554&url=6674703a2f2f78")
    (bs "method=474554&url=6674703a2f2f78") (bs "method=474554&url=6674703a2f2f78")
    [(bs "method", bs "GET"), (bs "url", bs "ftp://x")] rfl rfl (by decide) (by decide),
   by decide⟩

/-- C14 fails on the code: for the request `GET http://x` answered with status 200,
`post` sends the outer status 200, but `Content-Type: image/gif` is not among the
headers sent with it: `printResponse` calls `WriteHeader(200)` first and sets
the header afterwards, so it is only in the header map of the writer. -/
theorem envelope_content_type_not_sent :
    (post plainEnv answers200 (bs "method=474554&url=687474703a2f2f78")).calls
      = [⟨200, [(bs "Connection", bs "close")], bs "ok"⟩] ∧
    (post plainEnv answers200 (bs "method=474554&url=687474703a2f2f78")).response.status
      = some 200 ∧
    GoMap.get? (post plainEnv answers200 (bs "method=474554&url=687474703a2f2f78")).response.sent
      (bs "Content-Type") = none ∧
    GoMap.get? (post plainEnv answers200 (bs "method=474554&url=687474703a2f2f78")).response.header
      (bs "Content-Type") = some (bs "image/gif") := by
  decide

/-- C15, as amended: for every non-empty header map and every content, the bytes
`printResponse` appends to the body start with `'1'` when the header map has a
`Content-Type` that starts with `text/` and with `'0'` otherwise; after `'1'`
comes only what the zlib writer emits for the payload (nothing when the writer
cannot be made), after `'0'` the payload itself, so the discriminator is outside
the compressed stream.  Every notification of `printNotify` is framed with `'1'`. -/
theorem discriminator (env : Env) (w : World) (status : Int) (header : GoMap)
    (content : GoString) (hne : header ≠ []) :
    (∃ h, encodeData header = some h ∧
      (printResponse env w status header content).response.body
        = w.response.body ++ (if isTextual header then 49 else 48) ::
            (if isTextual header then
              (if env.newWriterOk then env.deflate (framePayload status h content) else [])
            else framePayload status h content)) ∧
    (∀ (method url text : GoString) (code : Int),
      ∃ rest, (printNotify env w method url code text).response.body
        = w.response.body ++ 49 :: rest) := by
  have h1 : bs "1" = [49] := by decide
  have h0 : bs "0" = [48] := by decide
  constructor
  · obtain ⟨e, m, rfl⟩ := List.exists_cons_of_ne_nil hne
    refine ⟨_, encodeData_cons e m, ?_⟩
    rw [printResponse_response env w status (e :: m) content _ (encodeData_cons e m), write_body,
      setHeader_body, writeHeader_body, h1, h0]
    split <;> rfl
  · intro method url text code
    have ht : isTextual [(bs "Content-Type", bs "text/html")] = true := by decide
    have hb := printResponse_response env w code [(bs "Content-Type", bs "text/html")]
      (notifyContent method url code text) _ (encodeData_cons _ _)
    rw [ht, if_pos rfl, h1] at hb
    rw [printNotify, hb, write_body, setHeader_body, writeHeader_body]
    exact ⟨_, rfl⟩

theorem discriminator_witness :
    ([(bs "Content-Type", bs "image/png"), (bs "Connection", bs "close")] : GoMap) ≠ [] ∧
    (∃ h, encodeData [(bs "Content-Type", bs "image/png"), (bs "Connection", bs "close")]
        = some h ∧
      (printResponse plainEnv World.init 200
          [(bs "Content-Type", bs "image/png"), (bs "Connection", bs "close")]
          (bs "ok")).response.body
        = World.init.response.body ++
            (if isTextual [(bs "Content-Type", bs "image/png"), (bs "Connection", bs "close")]
              then 49 else 48) ::
            (if isTextual [(bs "Content-Type", bs "image/png"), (bs "Connection", bs "close")] then
              (if plainEnv.newWriterOk then plainEnv.deflate (framePayload 200 h (bs "ok")) else [])
            else framePayload 200 h (bs "ok"))) ∧
    (∀ (method url text : GoString) (code : Int),
      ∃ rest, (printNotify plainEnv World.init method url code text).response.body
        = World.init.response.body ++ 49 :: rest) :=
  ⟨by decide, discriminator plainEnv World.init 200
    [(bs "Content-Type", bs "image/png"), (bs "Connection", bs "close")] (bs "ok") (by decide)⟩

/-- C15 fails as stated: on the empty header map `encodeData` panics before
anything is written, so `printResponse` writes no byte at all, neither `'0'`
nor `'1'`. -/
theorem discriminator_counterexample :
    isTextual [] = false ∧
    (printResponse plainEnv World.init 200 [] (bs "ok")).response.body = [] ∧
    (printResponse plainEnv World.init 200 [] (bs "ok")).panicked = true := by
  decide

/-- C16: a failure whose message contains `INVALID_URL` together with
`DEADLINE_EXCEEDED` or `FETCH_ERROR` falls under the earlier test: the loop goes
on to the next round with the deadline doubled, the request unchanged and no
notification written.  A message that contains `RESPONSE_TOO_LARGE` and
`INVALID_URL` (and neither of the first two words) is terminal: the loop ends
with the 501 notification, and no `Range` header is set. -/
theorem classification_priority (env : Env) (tr : Transport) (method url : GoString) (n i : Nat)
    (req : Request) (d : Nat) (errors : List GoString) (w : World) (m : GoString)
    (h : tr i = RoundTrip.failure m) :
    (contains m (bs "INVALID_URL") = true →
      (contains m (bs "DEADLINE_EXCEEDED") = true ∨ contains m (bs "FETCH_ERROR") = true) →
      fetchLoop env tr method url (n + 1) i (some req) d errors w
        = fetchLoop env tr method url n (i + 1) (some req) (d * 2) (errors ++ [m])
            { w with attempts := w.attempts ++ [⟨d, req.header⟩] }) ∧
    (contains m (bs "RESPONSE_TOO_LARGE") = true → contains m (bs "INVALID_URL") = true →
      contains m (bs "DEADLINE_EXCEEDED") = false → contains m (bs "FETCH_ERROR") = false →
      (fetchLoop env tr method url (n + 1) i (some req) d errors w).attempts
        = w.attempts ++ [⟨d, req.header⟩] ∧
      (fetchLoop env tr method url (n + 1) i (some req) d errors w).calls
        = w.calls ++ [notification method url 501 (bs "Invalid URL: " ++ m)]) := by
  constructor
  · intro _ h2
    rw [fetchLoop]
    simp only [h]
    by_cases h1 : contains m (bs "DEADLINE_EXCEEDED") = true
    · rw [if_pos h1]
    · rw [if_neg h1]
      rcases h2 with h2 | h2
      · exact absurd h2 h1
      · rw [if_pos h2]
  · intro _ hi hd hf
    have e : fetchLoop env tr method url (n + 1) i (some req) d errors w
        = printNotify env { w with attempts := w.attempts ++ [⟨d, req.header⟩] }
            method url 501 (bs "Invalid URL: " ++ m) := by
      rw [fetchLoop]
      simp [h, hd, hf, hi]
    rw [e]
    have hr := printNotify_record env { w with attempts := w.attempts ++ [⟨d, req.header⟩] }
      method url 501 (bs "Invalid URL: " ++ m)
    exact ⟨hr.2.1, hr.1⟩

theorem classification_priority_witness :
    fetchLoop plainEnv (fun _ => RoundTrip.failure (bs "DEADLINE_EXCEEDED INVALID_URL"))
        (bs "GET") (bs "http://x") (2 + 1) 0 (some sampleRequest) 30 [] World.init
      = fetchLoop plainEnv (fun _ => RoundTrip.failure (bs "DEADLINE_EXCEEDED INVALID_URL"))
          (bs "GET") (bs "http://x") 2 (0 + 1) (some sampleRequest) (30 * 2)
          ([] ++ [bs "DEADLINE_EXCEEDED INVALID_URL"])
          { World.init with attempts := World.init.attempts ++ [⟨30, sampleRequest.header⟩] } ∧
    (fetchLoop plainEnv (fun _ => RoundTrip.failure (bs "INVALID_URL RESPONSE_TOO_LARGE"))
        (bs "GET") (bs "http://x") (2 + 1) 0 (some sampleRequest) 30 [] World.init).attempts
      = World.init.attempts ++ [⟨30, sampleRequest.header⟩] ∧
    (fetchLoop plainEnv (fun _ => RoundTrip.failure (bs "INVALID_URL RESPONSE_TOO_LARGE"))
        (bs "GET") (bs "http://x") (2 + 1) 0 (some sampleRequest) 30 [] World.init).calls
      = World.init.calls ++ [notification (bs "GET") (bs "http://x") 501
          (bs "Invalid URL: " ++ bs "INVALID_URL RESPONSE_TOO_LARGE")] :=
  ⟨(classification_priority plainEnv _ (bs "GET") (bs "http://x") 2 0 sampleRequest 30 []
      World.init (bs "DEADLINE_EXCEEDED INVALID_URL") rfl).1 (by decide) (Or.inl (by decide)),
   (classification_priority plainEnv _ (bs "GET") (bs "http://x") 2 0 sampleRequest 30 []
      World.init (bs "INVALID_URL RESPONSE_TOO_LARGE") rfl).2 (by decide) (by decide) (by decide)
      (by decide)⟩

/-- C17: among the round trips of the loop, every one that follows a failure
classified as a response too large is sent with the header `Range` (under the
name `Header.Set` gives it) equal to `bytes=0-1048576`, every one before any
such failure with the headers of the request as the loop received it, and the
round trip right after such a failure has twice the deadline of the failed one. -/
theorem range_on_oversized (env : Env) (tr : Transport) (method url : GoString) (n i : Nat)
    (req : Request) (d : Nat) (errors : List GoString) (w : World) :
    FetchMaxSize = 1048576 ∧
    ∃ L : List Attempt,
      (fetchLoop env tr method url n i (some req) d errors w).attempts = w.attempts ++ L ∧
      ∀ j a, L[j]? = some a →
        (tooLargeBefore tr i j = true →
          GoMap.get? a.header (env.canonicalKey (bs "Range")) = some (bs "bytes=0-1048576")) ∧
        (tooLargeBefore tr i j = false → a.header = req.header) ∧
        (∀ b, (tr (i + j)).tooLarge = true → L[j + 1]? = some b → b.deadline = 2 * a.deadline) := by
  obtain ⟨L, h1, _, _, h4⟩ := fetchLoop_trace env tr method url n i req d errors w
  refine ⟨rfl, L, h1, ?_⟩
  intro j a ha
  obtain ⟨h5, h6⟩ := h4 j a ha
  refine ⟨?_, ?_, ?_⟩
  · intro ht
    rw [h6, ht, if_pos rfl, rangeValue_eq]
    exact get?_set_self _ _ _
  · intro ht
    rw [h6, ht]
    rfl
  · intro b hb hjb
    obtain ⟨h7, _⟩ := h4 (j + 1) b hjb
    have hd : (tr (i + j)).doubles = true := by
      cases ht : tr (i + j) with
      | success resp => simp [ht, RoundTrip.tooLarge] at hb
      | failure m =>
        simp only [ht, RoundTrip.tooLarge] at hb
        simp [RoundTrip.doubles, doublesDeadline, hb]
    rw [h7, h5, doublings, hd, if_pos rfl, pow_succ]
    ring

/-- C20: the deadline of round trip `j` of a call (counted from 0) is
`30 * 2 ^ k`, where `k` is the number of earlier round trips whose failure was
classified as deadline exceeded, fetch error or response too large; it is one of
30, 60 and 120, it is not above the deadline of the next round trip, and the
next deadline is the same when the failure was none of the three. -/
theorem deadline_closed_form (env : Env) (tr : Transport) (method url : GoString)
    (req : Request) (w : World) :
    ∃ L : List Attempt,
      (fetchLoop env tr method url FetchMax 0 (some req) Deadline [] w).attempts
        = w.attempts ++ L ∧
      ∀ j a, L[j]? = some a →
        a.deadline = 30 * 2 ^ doublings tr 0 j ∧
        (a.deadline = 30 ∨ a.deadline = 60 ∨ a.deadline = 120) ∧
        (∀ b, L[j + 1]? = some b →
          a.deadline ≤ b.deadline ∧ ((tr j).doubles = false → b.deadline = a.deadline)) := by
  obtain ⟨L, h1, h2, _, h4⟩ := fetchLoop_trace env tr method url FetchMax 0 req Deadline [] w
  refine ⟨L, h1, ?_⟩
  intro j a ha
  obtain ⟨h5, _⟩ := h4 j a ha
  have hj : j < 3 := by
    have := (List.getElem?_eq_some_iff.mp ha).1
    exact Nat.lt_of_lt_of_le this h2
  have hk := doublings_le tr 0 j
  have h5' : a.deadline = 30 * 2 ^ doublings tr 0 j := h5
  refine ⟨h5', ?_, ?_⟩
  · rw [h5']
    have hk3 : doublings tr 0 j < 3 := by omega
    interval_cases (doublings tr 0 j) <;> simp
  · intro b hb
    obtain ⟨h7, _⟩ := h4 (j + 1) b hb
    have h7' : b.deadline = 30 * 2 ^ doublings tr 0 (j + 1) := h7
    rw [h7', h5', doublings, Nat.zero_add]
    constructor
    · exact Nat.mul_le_mul_left _ (Nat.pow_le_pow_right (by decide) (Nat.le_add_right _ _))
    · intro hd
      simp [hd]

/-- C18: on every `Set-Cookie` value the folding loop never indexes `cookies` out
of range: after any number `k` of fragments the loop has not panicked and
`i = len(cookies) - 1`; the first fragment starts the first entry, and the
result has at least one entry. -/
theorem cookie_folding_safe (v : GoString) :
    (∀ k, ∃ cookies, foldLoop ((split v (bs ", ")).take k) ([], -1)
      = some (cookies, (cookies.length : Int) - 1)) ∧
    (∃ f r t rest, split v (bs ", ") = f :: r ∧ foldedCookies v = some ((f ++ t) :: rest)) := by
  constructor
  · intro k
    have h := foldLoop_eq ((split v (bs ", ")).take k) []
    simp only [List.length_nil, Int.Nat.cast_ofNat_Int, Int.zero_sub] at h
    exact ⟨_, h⟩
  · have hne : split v (bs ", ") ≠ [] := by
      unfold split
      rw [if_neg (by decide)]
      exact splitGo_ne_nil _ _ _ _
    obtain ⟨f, r, hfr⟩ := List.exists_cons_of_ne_nil hne
    obtain ⟨t, rest, ht⟩ := entriesBy_head (fun sc => !regexMatch sc) r f []
    refine ⟨f, r, t, rest, hfr, ?_⟩
    rw [foldedCookies_eq, hfr, entriesBy, if_pos (Or.inl rfl)]
    simpa using ht

/-- C19: for every `Set-Cookie` value `v` the loop leaves entries whose join with
`", "` is `v` itself, while the folded value is their join with
`"\r\nSet-Cookie: "`; the `", "`-separated fragments of the entries, put one
after another, are the fragments of `v` in their order. -/
theorem cookie_folding_lossless (v : GoString) :
    ∃ cookies, foldedCookies v = some cookies ∧
      foldCookies v = some (join (bs "\r\nSet-Cookie: ") cookies) ∧
      join (bs ", ") cookies = v ∧
      (cookies.map (fun e => split e (bs ", "))).flatten = split v (bs ", ") := by
  have hj : join (bs ", ") (split v (bs ", ")) = v := by
    unfold split
    rw [if_neg (by decide)]
    simpa using join_splitGo (bs ", ") (by decide) v.length v [] (Nat.le_refl _)
  have hne : split v (bs ", ") ≠ [] := by
    unfold split
    rw [if_neg (by decide)]
    exact splitGo_ne_nil _ _ _ _
  have h1 : join (bs ", ") (entriesBy (fun sc => !regexMatch sc) (split v (bs ", ")) []) = v := by
    rw [join_entriesBy, List.nil_append, hj]
  have h2 : entriesBy (fun sc => !regexMatch sc) (split v (bs ", ")) [] ≠ [] :=
    entriesBy_ne_nil _ _ _ (by simpa using hne)
  refine ⟨_, foldedCookies_eq v, by simp [foldCookies, foldedCookies_eq], h1, ?_⟩
  have h3 := splitGo_join_pieces 44 [32] (by decide) _ h2
  rw [← bs_comma_space, h1] at h3
  have e : ∀ x : GoString, split x (bs ", ") = splitGo (bs ", ") 0 x [] := by
    intro x
    unfold split
    rw [if_neg (by decide)]
  simp only [e]
  exact h3.symm

end GoAgent
